import Mathlib

/-!
Verification of the remote convergence execution engine of the
Docker-Swarm cluster configuration service.

The Lean definitions below are a shallow embedding of the Go source:

* `ipdetect` — IP classification (`ClassifyIP`), best-address selection
  (`SelectBestIP`), local primary detection (`detectPrimaryWithExclusions`),
  and the SSH-based remote resolution functions (`DetectPrimarySSH`,
  `ResolveNodeAddressSSH`).
* `services` — the Keepalived/VRRP planner (`resolveNodeConfig`,
  `findUnusedVIP`).
* `retry` — the exponential-backoff retry engine (`Do`).
* `ssh` — the connection-establishment classification of `NewClient`
  (`isRetryableNetworkError`, `isRetryableSSHError`) and an interleaving
  model of the pool's double-checked `Get`.

Machine bytes are modelled as `Nat` octets; remote effects (SSH command
results, ARP probes, dial outcomes) are modelled as explicit oracle
inputs so that every function is pure and executable.
-/

set_option autoImplicit false

namespace gostrings

/-- ASCII lower-casing of one character (Go `strings.ToLower`; every
string the source compares against is ASCII). -/
def charToLower (c : Char) : Char :=
  if 65 ≤ c.toNat ∧ c.toNat ≤ 90 then Char.ofNat (c.toNat + 32) else c

/-- ASCII upper-casing of one character (Go `strings.ToUpper`). -/
def charToUpper (c : Char) : Char :=
  if 97 ≤ c.toNat ∧ c.toNat ≤ 122 then Char.ofNat (c.toNat - 32) else c

/-- Go `strings.ToLower` (ASCII model). -/
def toLower (s : String) : String := .mk (s.toList.map charToLower)

/-- Go `strings.ToUpper` (ASCII model). -/
def toUpper (s : String) : String := .mk (s.toList.map charToUpper)

/-- ASCII whitespace (the cases of Go `unicode.IsSpace` that can occur
in the command output the source trims). -/
def isSpace (c : Char) : Bool := c = ' ' ∨ c = '\t' ∨ c = '\n' ∨ c = '\r'

/-- Go `strings.TrimSpace` (ASCII model). -/
def trimSpace (s : String) : String :=
  .mk (((s.toList.dropWhile isSpace).reverse.dropWhile isSpace).reverse)

/-- Go `strings.Split(s, "/")[0]`: the prefix of `s` before the first
slash (all of `s` when it has none). -/
def headBeforeSlash (s : String) : String :=
  .mk (s.toList.takeWhile (fun c => c ≠ '/'))

/-- Go `strings.TrimSuffix s "."`. -/
def trimSuffixDot (s : String) : String :=
  if s.toList.getLast? = some '.' then .mk s.toList.dropLast else s

/-- Decimal digits of a natural number, most significant first. -/
def natDigits (n : Nat) : List Char :=
  if h : n < 10 then [Char.ofNat (48 + n)]
  else natDigits (n / 10) ++ [Char.ofNat (48 + n % 10)]
decreasing_by exact Nat.div_lt_self (by omega) (by omega)

/-- Decimal rendering of a natural number (Go `fmt` / `strconv`). -/
def natToString (n : Nat) : String := .mk (natDigits n)

end gostrings

namespace ipdetect

/-- An IPv4 address as four octets (Go: the 4-byte form `ip.To4()`).
Octets are modelled as `Nat`; real addresses have every octet `< 256`,
and all theorems below hold for arbitrary `Nat` octets. -/
structure IPv4 where
  o1 : Nat
  o2 : Nat
  o3 : Nat
  o4 : Nat
  deriving DecidableEq, Repr

/-- Go `net.IP.IsLoopback` restricted to 4-byte IPv4: first octet 127. -/
def IPv4.isLoopback (ip : IPv4) : Bool := ip.o1 = 127

/-- The 32-bit value of an IPv4 address (big-endian octet order). -/
def IPv4.toNat32 (ip : IPv4) : Nat :=
  ip.o1 * 2 ^ 24 + ip.o2 * 2 ^ 16 + ip.o3 * 2 ^ 8 + ip.o4

/-- Rebuild an IPv4 address from a 32-bit value. -/
def IPv4.ofNat32 (n : Nat) : IPv4 :=
  ⟨n / 2 ^ 24 % 256, n / 2 ^ 16 % 256, n / 2 ^ 8 % 256, n % 256⟩

/-- Dotted-decimal rendering of an IPv4 address (Go `net.IP.String`). -/
def IPv4.render (ip : IPv4) : String :=
  gostrings.natToString ip.o1 ++ "." ++ gostrings.natToString ip.o2 ++ "." ++
    gostrings.natToString ip.o3 ++ "." ++ gostrings.natToString ip.o4

/-- `IPClass` represents the classification of an IP address for
precedence ordering, with the Go `iota` numbering. -/
inductive IPClass where
  | ClassOther
  | ClassLoopback
  | ClassRFC1918
  | ClassCGNAT
  deriving DecidableEq, Repr

/-- Numeric precedence of a class (the Go `iota` value; higher = higher
precedence). -/
def IPClass.rank : IPClass → Nat
  | .ClassOther => 0
  | .ClassLoopback => 1
  | .ClassRFC1918 => 2
  | .ClassCGNAT => 3

/-- `ClassifyIP` returns the classification of an IPv4 address for
precedence ordering, following the Go source order of checks:
loopback, then CGNAT `100.64.0.0/10`, then the three RFC1918 ranges,
otherwise `Other`. -/
def ClassifyIP (ip : IPv4) : IPClass :=
  if ip.isLoopback then .ClassLoopback
  else if ip.o1 = 100 ∧ 64 ≤ ip.o2 ∧ ip.o2 ≤ 127 then .ClassCGNAT
  else if ip.o1 = 10 then .ClassRFC1918
  else if ip.o1 = 172 ∧ 16 ≤ ip.o2 ∧ ip.o2 ≤ 31 then .ClassRFC1918
  else if ip.o1 = 192 ∧ ip.o2 = 168 then .ClassRFC1918
  else .ClassOther

/-- Classification as worded by the specification (for the refinement
theorem): Overlay if the first octet is 100 and the second is in
`[64,127]`; Private if in `10.0.0.0/8`, `172.16.0.0/12` or
`192.168.0.0/16`; Loopback if the first octet is 127; otherwise Other. -/
def classifySpec (ip : IPv4) : IPClass :=
  if ip.o1 = 100 ∧ 64 ≤ ip.o2 ∧ ip.o2 ≤ 127 then .ClassCGNAT
  else if ip.o1 = 10 ∨ (ip.o1 = 172 ∧ 16 ≤ ip.o2 ∧ ip.o2 ≤ 31) ∨ (ip.o1 = 192 ∧ ip.o2 = 168) then
    .ClassRFC1918
  else if ip.o1 = 127 then .ClassLoopback
  else .ClassOther

/-- A parsed CIDR network (Go `*net.IPNet` for IPv4): the network base
address as a 32-bit value together with the prefix length.
`contains` mirrors Go `IPNet.Contains`: the high `maskBits` bits of the
address equal those of the base. -/
structure IPNet where
  base : Nat
  maskBits : Nat
  deriving DecidableEq, Repr

/-- Go `(*net.IPNet).Contains` for an IPv4 address. -/
def IPNet.contains (n : IPNet) (ip : IPv4) : Bool :=
  ip.toNat32 / 2 ^ (32 - n.maskBits) = n.base / 2 ^ (32 - n.maskBits)

/-- `IsInDockerSubnet` checks if an IP address falls within any Docker
network subnet. -/
def IsInDockerSubnet (ip : IPv4) (dockerSubnets : List IPNet) : Bool :=
  dockerSubnets.any (fun subnet => subnet.contains ip)

/-- The three-way partition built by the loop of `SelectBestIP`: candidate
strings that fail to parse as IPv4 (`none` entries) are skipped, loopback
addresses are skipped, addresses inside a Docker subnet are skipped, and
the rest are appended to the `cgnat`, `rfc1918` or `other` list according
to `ClassifyIP`. -/
def selectPartition (dockerSubnets : List IPNet) :
    List (Option IPv4) → List IPv4 × List IPv4 × List IPv4
  | [] => ([], [], [])
  | none :: rest => selectPartition dockerSubnets rest
  | some ip :: rest =>
    let acc := selectPartition dockerSubnets rest
    if ip.isLoopback then acc
    else if IsInDockerSubnet ip dockerSubnets then acc
    else match ClassifyIP ip with
      | .ClassCGNAT => (ip :: acc.1, acc.2.1, acc.2.2)
      | .ClassRFC1918 => (acc.1, ip :: acc.2.1, acc.2.2)
      | _ => (acc.1, acc.2.1, ip :: acc.2.2)

/-- `SelectBestIP` selects the best IP from a list based on precedence
rules; Docker subnets are excluded. The Go function takes strings and
returns `""` when nothing is suitable; here each candidate is given as its
`net.ParseIP`+`To4` result (`none` when unparsable or not IPv4) and the
empty-string result is `none`. -/
def SelectBestIP (ips : List (Option IPv4)) (dockerSubnets : List IPNet) : Option IPv4 :=
  match (selectPartition dockerSubnets ips).1 with
  | ip :: _ => some ip
  | [] =>
    match (selectPartition dockerSubnets ips).2.1 with
    | ip :: _ => some ip
    | [] =>
      match (selectPartition dockerSubnets ips).2.2 with
      | ip :: _ => some ip
      | [] => none

/-- One entry of Go `net.Interfaces()` as consumed by
`detectPrimaryWithExclusions`: whether the interface is up, whether
`iface.Addrs()` failed, and the parsed IPv4 addresses (`none` entries are
non-IPv4 or unparsable `ipFromAddr` results). -/
structure NetInterface where
  up : Bool
  addrsErr : Bool
  addrs : List (Option IPv4)

/-- The four-way partition built by the interface loop of
`detectPrimaryWithExclusions`. Note the source collects loopback
addresses before the Docker-subnet check, so loopback addresses are never
tested for exclusion. Order of fields: (cgnat, rfc1918, other, loopback). -/
def detectPartition (dockerSubnets : List IPNet) (ifaces : List NetInterface) :
    List IPv4 × List IPv4 × List IPv4 × List IPv4 :=
  match ifaces with
  | [] => ([], [], [], [])
  | iface :: rest =>
    let acc := detectPartition dockerSubnets rest
    if !iface.up then acc
    else if iface.addrsErr then acc
    else
      let here := addrLoop dockerSubnets iface.addrs
      (here.1 ++ acc.1, here.2.1 ++ acc.2.1, here.2.2.1 ++ acc.2.2.1, here.2.2.2 ++ acc.2.2.2)
where
  /-- The inner loop over one interface's addresses. -/
  addrLoop (dockerSubnets : List IPNet) :
      List (Option IPv4) → List IPv4 × List IPv4 × List IPv4 × List IPv4
  | [] => ([], [], [], [])
  | none :: rest => addrLoop dockerSubnets rest
  | some ip :: rest =>
    let acc := addrLoop dockerSubnets rest
    if ip.isLoopback then (acc.1, acc.2.1, acc.2.2.1, ip :: acc.2.2.2)
    else if IsInDockerSubnet ip dockerSubnets then acc
    else match ClassifyIP ip with
      | .ClassCGNAT => (ip :: acc.1, acc.2.1, acc.2.2.1, acc.2.2.2)
      | .ClassRFC1918 => (acc.1, ip :: acc.2.1, acc.2.2.1, acc.2.2.2)
      | _ => (acc.1, acc.2.1, ip :: acc.2.2.1, acc.2.2.2)

/-- An address offered to `detectPrimaryWithExclusions`: it parses as
IPv4 on some interface that is up and whose address listing succeeded. -/
def detectCandidate (ifaces : List NetInterface) (x : IPv4) : Prop :=
  ∃ iface, iface ∈ ifaces ∧ iface.up = true ∧ iface.addrsErr = false ∧ some x ∈ iface.addrs

/-- `detectPrimaryWithExclusions`: the internal implementation of local
primary-IP detection over a pre-fetched interface list and Docker-subnet
exclusion set. Returns the first collected address of the highest
nonempty class (CGNAT, then RFC1918, then other, then loopback as last
resort) or the source's error when no IPv4 address was found. -/
def detectPrimaryWithExclusions (ifaces : List NetInterface)
    (dockerSubnets : List IPNet) : Except String IPv4 :=
  match (detectPartition dockerSubnets ifaces).1 with
  | ip :: _ => .ok ip
  | [] =>
    match (detectPartition dockerSubnets ifaces).2.1 with
    | ip :: _ => .ok ip
    | [] =>
      match (detectPartition dockerSubnets ifaces).2.2.1 with
      | ip :: _ => .ok ip
      | [] =>
        match (detectPartition dockerSubnets ifaces).2.2.2 with
        | ip :: _ => .ok ip
        | [] => .error "ipdetect: no IPv4 address found"

/-- The fields of the Netbird status JSON read by the detection code. -/
structure NetbirdStatus where
  fqdn : String
  netbirdIp : String
  deriving DecidableEq, Repr

/-- The fields of the Tailscale status JSON read by the detection code. -/
structure TailscaleStatus where
  dnsName : String
  tailscaleIPs : List String
  deriving DecidableEq, Repr

/-- The remote side of the SSH-based detection functions, as an oracle:
each field is the observable outcome of one remote query. `none` models
a failed command or unparsable JSON (both are skipped identically by
the source). `hostnameI` carries the whitespace-separated fields of
`hostname -I`, each already put through `net.ParseIP`+`To4` (`none`
entries did not parse as IPv4); `hostnameF` carries the raw stdout of
`hostname -f`. `dockerSubnets` is the remote Docker-subnet exclusion
set gathered by `GetDockerSubnetsSSH`. -/
structure RemoteNode where
  netbird : Option NetbirdStatus
  tailscale : Option TailscaleStatus
  hostnameI : Option (List (Option IPv4))
  hostnameF : Option String
  dockerSubnets : List IPNet

/-- Steps 3–4 of `DetectPrimarySSH`: `SelectBestIP` over the
`hostname -I` fields with Docker subnets excluded, falling back to the
SSH node string. -/
def hostnameFallback (w : RemoteNode) (node : String) : String :=
  match w.hostnameI with
  | some fields =>
    match SelectBestIP fields w.dockerSubnets with
    | some best => best.render
    | none => node
  | none => node

/-- `DetectPrimarySSH` detects the best IP address on a remote node via
SSH: overlay status queries first (Netbird, then Tailscale, per the
configured provider), then `SelectBestIP` over the `hostname -I`
fields with Docker subnets excluded, and finally the SSH node string
itself as fallback. Returns a string and no error, as the source does. -/
def DetectPrimarySSH (w : RemoteNode) (node overlayProvider : String) : String :=
  let provider := gostrings.toLower (gostrings.trimSpace overlayProvider)
  let fromNetbird : Option String :=
    if provider = "netbird" then
      match w.netbird with
      | some status =>
        if status.netbirdIp ≠ "" then some (gostrings.headBeforeSlash status.netbirdIp)
        else none
      | none => none
    else none
  match fromNetbird with
  | some ip => ip
  | none =>
    let fromTailscale : Option String :=
      if provider = "tailscale" then
        match w.tailscale with
        | some status =>
          match status.tailscaleIPs with
          | ip :: _ => some ip
          | [] => none
        | none => none
      else none
    match fromTailscale with
    | some ip => ip
    | none => hostnameFallback w node

/-- `ResolveNodeAddressSSH` resolves the best address for a node with
precedence: overlay hostname, overlay IP, system hostname (rejecting
`localhost`), then `DetectPrimarySSH`. -/
def ResolveNodeAddressSSH (w : RemoteNode) (node overlayProvider : String) : String :=
  let provider := gostrings.toLower (gostrings.trimSpace overlayProvider)
  let fromOverlay : Option String :=
    if provider = "netbird" then
      match w.netbird with
      | some status =>
        if status.fqdn ≠ "" then some status.fqdn
        else if status.netbirdIp ≠ "" then some (gostrings.headBeforeSlash status.netbirdIp)
        else none
      | none => none
    else if provider = "tailscale" then
      match w.tailscale with
      | some status =>
        if status.dnsName ≠ "" then some (gostrings.trimSuffixDot status.dnsName)
        else
          match status.tailscaleIPs with
          | ip :: _ => some ip
          | [] => none
      | none => none
    else none
  match fromOverlay with
  | some a => a
  | none =>
    let fromHostname : Option String :=
      match w.hostnameF with
      | some out =>
        let hostname := gostrings.trimSpace out
        if hostname ≠ "" ∧ hostname ≠ "localhost" then some hostname else none
      | none => none
    match fromHostname with
    | some h => h
    | none => DetectPrimarySSH w node overlayProvider

end ipdetect

namespace retry

/-- `Config` defines retry behavior for operations. Backoff durations are
in milliseconds; the Go `BackoffMultiple float64` is modelled as `Nat`
(every preset in the source uses the integral multiplier `2.0`). -/
structure Config where
  MaxAttempts : Nat
  InitialBackoffMs : Nat
  MaxBackoffMs : Nat
  BackoffMultiple : Nat
  Operation : String
  deriving DecidableEq, Repr

/-- `SSHConfig` returns retry config optimized for SSH operations. -/
def SSHConfig (operation : String) : Config :=
  { MaxAttempts := 3
    InitialBackoffMs := 1000
    MaxBackoffMs := 10000
    BackoffMultiple := 2
    Operation := operation }

/-- The observable outcome of `retry.Do`, together with the number of
times the wrapped operation was invoked. `ok` is the `nil` return;
`cancelled` is the `ctx.Done()` branch of the backoff select;
`exhausted` is the max-attempts error wrapping the last operation error;
`loopExit` is the unreachable-loop-exit error (taken when
`MaxAttempts < 1`). -/
inductive Result (E : Type) where
  | ok (attempts : Nat)
  | cancelled (operation : String) (attempts : Nat)
  | exhausted (operation : String) (attempts : Nat) (lastErr : E)
  | loopExit (operation : String)
  deriving DecidableEq, Repr

/-- How many times the wrapped operation ran, per outcome. -/
def Result.attempts {E : Type} : Result E → Nat
  | .ok a => a
  | .cancelled _ a => a
  | .exhausted _ a e => let _ := e; a
  | .loopExit _ => 0

/-- The error message `retry.Do` returns, rendered as in the Go source
(`fmt.Errorf` with `%w` appending the wrapped error's message); `none`
is the `nil` success return. The context error is rendered as the Go
`context.Canceled` message. -/
def Result.errorMessage : Result String → Option String
  | .ok _ => none
  | .cancelled op a =>
    some (op ++ ": context cancelled after " ++ toString a ++ " attempts: context canceled")
  | .exhausted op a e =>
    some (op ++ ": failed after " ++ toString a ++ " attempts: " ++ e)
  | .loopExit op => some (op ++ ": unexpected retry loop exit")

/-- The body of the retry loop of `retry.Do`, starting at attempt number
`attempt` (1-based). `fn k` is the outcome of the `k`-th invocation of
the wrapped operation (`none` = success, `some e` = failure with error
`e`); `ctxDone k` tells whether the surrounding context is cancelled
during the backoff wait that follows a failed attempt `k` (the
`ctx.Done()` arm of the `select` wins). The backoff duration is carried
and updated exactly as in the source, although no claim depends on its
value. `fuel` is the number of iterations the Go `for` loop may still
run (`MaxAttempts + 1 − attempt`); running out of fuel is exactly the
source's unreachable "unexpected retry loop exit" return, taken only
when `MaxAttempts` is zero. -/
def doFrom {E : Type} (cfg : Config) (fn : Nat → Option E) (ctxDone : Nat → Bool) :
    (backoffMs : Nat) → (attempt : Nat) → (fuel : Nat) → Result E
  | _, _, 0 => .loopExit cfg.Operation
  | backoffMs, attempt, fuel + 1 =>
    match fn attempt with
    | none => .ok attempt
    | some e =>
      if attempt < cfg.MaxAttempts then
        if ctxDone attempt then .cancelled cfg.Operation attempt
        else
          doFrom cfg fn ctxDone
            (min (backoffMs * cfg.BackoffMultiple) cfg.MaxBackoffMs) (attempt + 1) fuel
      else .exhausted cfg.Operation attempt e

/-- `Do` executes the given function with retry logic and exponential
backoff: up to `MaxAttempts` attempts, aborting between attempts when
the context reports done. -/
def Do {E : Type} (cfg : Config) (fn : Nat → Option E) (ctxDone : Nat → Bool) : Result E :=
  doFrom cfg fn ctxDone cfg.InitialBackoffMs 1 cfg.MaxAttempts

end retry

namespace sshclient

/-- Go `strings.Contains hay needle`: some contiguous run of `hay`
equals `needle`. -/
def containsSubstr (hay needle : String) : Bool :=
  hay.toList.tails.any (fun t => needle.toList.isPrefixOf t)

/-- `isRetryableNetworkError` checks if a network error is transient and
should be retried. The Go function takes an `error`; here it takes the
error's message (the `err == nil` case returns false and is modelled by
only ever applying the function to messages of present errors). -/
def isRetryableNetworkError (errStr : String) : Bool :=
  containsSubstr errStr "connection refused" ||
  containsSubstr errStr "timeout" ||
  containsSubstr errStr "temporary failure" ||
  containsSubstr errStr "network is unreachable" ||
  containsSubstr errStr "no route to host"

/-- `isRetryableSSHError` checks if an SSH error is transient and should
be retried. -/
def isRetryableSSHError (errStr : String) : Bool :=
  containsSubstr errStr "unable to authenticate" ||
  containsSubstr errStr "handshake failed" ||
  containsSubstr errStr "connection reset" ||
  containsSubstr errStr "broken pipe"

/-- The outcomes of the network dial and the SSH handshake on each
attempt, as an oracle: `dial k` / `handshake k` give the `k`-th
attempt's result (`Except.error` carries the error message). -/
structure DialWorld where
  dial : Nat → Except String Unit
  handshake : Nat → Except String Unit

/-- The closure that `NewClient` passes to `retry.Do`: dial, then
handshake, wrapping errors with the messages of the source. Note that
both the retryable and the non-retryable branches return a (non-`nil`)
error to `retry.Do`. -/
def newClientAttempt (addr : String) (w : DialWorld) (attempt : Nat) : Option String :=
  match w.dial attempt with
  | .error e =>
    if isRetryableNetworkError e then some ("failed to dial " ++ addr ++ ": " ++ e)
    else some ("failed to dial " ++ addr ++ " (non-retryable): " ++ e)
  | .ok _ =>
    match w.handshake attempt with
    | .error e =>
      if isRetryableSSHError e then
        some ("failed to establish ssh connection to " ++ addr ++ ": " ++ e)
      else some ("failed to establish ssh connection to " ++ addr ++ " (non-retryable): " ++ e)
    | .ok _ => none

/-- The connection-establishment loop of `NewClient`: the dial/handshake
closure wrapped in `retry.Do` under `retry.SSHConfig`. -/
def NewClientConnect (host addr : String) (w : DialWorld) (ctxDone : Nat → Bool) :
    retry.Result String :=
  retry.Do (retry.SSHConfig ("ssh-connect-" ++ host)) (newClientAttempt addr w) ctxDone

end sshclient

namespace config

/-- Modelled from the spec: `config.IsAutoValue` (the function lives in
the repository's `config` package, which is not part of the provided
sources; only its call sites are). Per the spec, a configuration value
requests auto-detection when it is the placeholder `"auto"`;
case-insensitivity matches the spec's tolerance for user-written
configuration values. -/
def IsAutoValue (s : String) : Bool := gostrings.toLower s = "auto"

/-- Per-node Keepalived override strings (`config.NodeConfig.Keepalived`),
as read by `resolveNodeConfig`: an explicit priority and state, empty or
`"auto"` when not overridden. -/
structure KeepalivedOverrides where
  Priority : String
  State : String
  deriving DecidableEq, Repr

/-- The fields of `config.NodeConfig` consumed by `resolveNodeConfig`. -/
structure NodeConfig where
  SSHFQDNorIP : String
  Keepalived : KeepalivedOverrides
  deriving DecidableEq, Repr

end config

namespace defaults

/-- Modelled from the spec: `defaults.KeepalivedBasePriority` (the
`defaults` package is not part of the provided sources). The spec fixes
the base of the descending priority assignment at 100 in its worked
example (3 nodes, no overrides, priorities `[100, 99, 98]`). -/
def KeepalivedBasePriority : Int := 100

end defaults

namespace services

open ipdetect

/-- `KeepalivedNodeConfig` holds the resolved configuration for a single
node (Go struct; the `Priority` field is documented in the source as
"VRRP priority (1-254)"). -/
structure KeepalivedNodeConfig where
  Hostname : String
  Priority : Int
  State : String
  Interface : String
  VIP : String
  deriving DecidableEq, Repr

/-- The value of a list of decimal digits. -/
def digitsToNat (ds : List Char) : Nat :=
  ds.foldl (fun n c => n * 10 + (c.toNat - 48)) 0

/-- Go `strconv.Atoi`: an optional sign followed by at least one decimal
digit (64-bit overflow, which Go reports as an error, is not modelled;
no claim exercises it). -/
def atoiGo (s : String) : Option Int :=
  match s.toList with
  | [] => none
  | '+' :: ds => if ds ≠ [] ∧ ds.all Char.isDigit then some (digitsToNat ds) else none
  | '-' :: ds => if ds ≠ [] ∧ ds.all Char.isDigit then some (-(digitsToNat ds : Int)) else none
  | ds => if ds.all Char.isDigit then some (digitsToNat ds) else none

/-- `resolveNodeConfig` resolves the per-node configuration with
auto-values: priority is the base minus the node index unless a
non-auto, non-empty override string parses as an integer; state is
MASTER for index 0 and BACKUP otherwise unless a non-auto, non-empty
override is given (uppercased). -/
def resolveNodeConfig (node : config.NodeConfig) (nodeIndex : Nat)
    (iface vipCIDR : String) : KeepalivedNodeConfig :=
  let priority : Int := defaults.KeepalivedBasePriority - nodeIndex
  let priority : Int :=
    if ¬config.IsAutoValue node.Keepalived.Priority ∧ node.Keepalived.Priority ≠ "" then
      match atoiGo node.Keepalived.Priority with
      | some p => p
      | none => priority
    else priority
  let state := if nodeIndex = 0 then "MASTER" else "BACKUP"
  let state :=
    if ¬config.IsAutoValue node.Keepalived.State ∧ node.Keepalived.State ≠ "" then
      gostrings.toUpper node.Keepalived.State
    else state
  { Hostname := node.SSHFQDNorIP
    Priority := priority
    State := state
    Interface := iface
    VIP := vipCIDR }

/-- The per-node loop of `PrepareKeepalivedDeployment`: every enabled
node, in declared order, resolved with its index. -/
def planNodes (nodes : List config.NodeConfig) (iface vipCIDR : String) :
    List KeepalivedNodeConfig :=
  nodes.enum.map (fun p => resolveNodeConfig p.2 p.1 iface vipCIDR)

/-- Go `ip.Mask(net.CIDRMask(maskBits, 32))`: zero the low `32 - maskBits`
bits of the address. -/
def maskIPv4 (ip : IPv4) (maskBits : Nat) : IPv4 :=
  IPv4.ofNat32 (ip.toNat32 / 2 ^ (32 - maskBits) * 2 ^ (32 - maskBits))

/-- The candidate list probed by `findUnusedVIP`: last octets 254 down to
245 on the chosen interface's network, skipping the interface's own
address (the Go code compares rendered strings of valid IPv4 addresses,
which coincides with value equality). -/
def vipCandidates (network ifaceIP : IPv4) : List IPv4 :=
  ((List.range 10).map (fun k => 254 - k)).filterMap (fun i =>
    let candidate : IPv4 := ⟨network.o1, network.o2, network.o3, i⟩
    if candidate = ifaceIP then none else some candidate)

/-- The sequential ARP probing loop of `findUnusedVIP`. `inUse c` is the
outcome of the duplicate-address `arping` probe of candidate `c` (the
Go command exits 0, i.e. no error, exactly when the address is in use).
Returns the selected candidate (the first that probes unused, if any)
together with the trace of candidates actually probed, in order. -/
def probeLoop (inUse : IPv4 → Bool) : List IPv4 → Option IPv4 × List IPv4
  | [] => (none, [])
  | c :: rest =>
    if inUse c then
      let acc := probeLoop inUse rest
      (acc.1, c :: acc.2)
    else (some c, [c])

/-- The failure value of `findUnusedVIP`: the Go error
`"no unused IP found in range %s.245-%s.254"` formatted with the
network prefix; the network is carried so the error names the probed
range. -/
structure VipRangeExhausted where
  network : IPv4
  deriving DecidableEq, Repr

/-- `findUnusedVIP` finds an unused IP address in the subnet using ARP
scanning: compute the network of the interface address, probe the
candidates from `.254` downwards sequentially, select the first that
reports unused, and fail naming the probed range when every candidate
is in use. Returns the result together with the probe trace. -/
def findUnusedVIP (ifaceIP : IPv4) (maskBits : Nat) (inUse : IPv4 → Bool) :
    Except VipRangeExhausted IPv4 × List IPv4 :=
  match (probeLoop inUse (vipCandidates (maskIPv4 ifaceIP maskBits) ifaceIP)).1 with
  | some c => (.ok c, (probeLoop inUse (vipCandidates (maskIPv4 ifaceIP maskBits) ifaceIP)).2)
  | none =>
    (.error ⟨maskIPv4 ifaceIP maskBits⟩,
      (probeLoop inUse (vipCandidates (maskIPv4 ifaceIP maskBits) ifaceIP)).2)

end services

namespace pool

/-- An interleaving model of two goroutines concurrently calling
`Pool.Get` for the same host, with the connection creation
(`NewClient`) modelled as succeeding. Program counters follow the
source:

0. read `clients[host]` under `RLock` (hit returns, miss falls through);
1. `mu.Lock()` (blocks while the other thread holds the mutex);
2. re-check `clients[host]` (hit records the result and unlocks);
3. `mu.Unlock()` and return the recorded result;
4. `NewClient` — create a fresh connection (the counted attempt);
5. `clients[host] = client`, record result.
6. done.

Connections are numbered by creation order. `conn` is the single map
slot for the host (at most one live connection per host by
construction of the map), `created` counts connection attempts. -/
structure GetState where
  lockHeldBy : Option (Fin 2)
  conn : Option Nat
  created : Nat
  pcA : Nat
  pcB : Nat
  retA : Option Nat
  retB : Option Nat
  localA : Option Nat
  localB : Option Nat
  deriving DecidableEq, Repr

/-- The initial pool state: empty map, free mutex, both callers at the
first read. -/
def initState : GetState :=
  { lockHeldBy := none, conn := none, created := 0, pcA := 0, pcB := 0
    retA := none, retB := none, localA := none, localB := none }

/-- The program counter of thread `t`. -/
def GetState.pc (s : GetState) (t : Fin 2) : Nat :=
  if t = 0 then s.pcA else s.pcB

/-- One atomic step of thread `t`, `none` when the thread is blocked on
the mutex or already done. -/
def step (s : GetState) (t : Fin 2) : Option GetState :=
  let setPc (s' : GetState) (v : Nat) : GetState :=
    if t = 0 then { s' with pcA := v } else { s' with pcB := v }
  let setRet (s' : GetState) (v : Option Nat) : GetState :=
    if t = 0 then { s' with retA := v } else { s' with retB := v }
  let setLocal (s' : GetState) (v : Option Nat) : GetState :=
    if t = 0 then { s' with localA := v } else { s' with localB := v }
  let getLocal : Option Nat := if t = 0 then s.localA else s.localB
  match s.pc t with
  | 0 =>
    match s.conn with
    | some c => some (setPc (setRet s (some c)) 6)
    | none => some (setPc s 1)
  | 1 =>
    match s.lockHeldBy with
    | none => some (setPc { s with lockHeldBy := some t } 2)
    | some _ => none
  | 2 =>
    match s.conn with
    | some c => some (setPc (setRet s (some c)) 3)
    | none => some (setPc s 4)
  | 3 => some (setPc { s with lockHeldBy := none } 6)
  | 4 => some (setPc (setLocal { s with created := s.created + 1 } (some s.created)) 5)
  | 5 => some (setPc (setRet { s with conn := getLocal } getLocal) 3)
  | _ => none

/-- Both callers have returned. -/
def GetState.finished (s : GetState) : Bool :=
  s.pcA = 6 ∧ s.pcB = 6

/-- The safety property checked at every reachable state: never more
than one connection attempt, and every returned client is the one in
the map. -/
def GetState.safe (s : GetState) : Bool :=
  s.created ≤ 1 ∧
  (s.retA = none ∨ s.retA = s.conn) ∧
  (s.retB = none ∨ s.retB = s.conn) ∧
  (s.finished → (s.created = 1 ∧ s.retA = some 0 ∧ s.retB = some 0 ∧ s.conn = some 0))

/-- Explore every interleaving from `s`, checking `GetState.safe`
everywhere; `fuel` bounds the recursion depth (every step strictly
advances a program counter, so 16 suffices from the initial state). -/
def checkAll (fuel : Nat) (s : GetState) : Bool :=
  match fuel with
  | 0 => false
  | fuel + 1 =>
    s.safe &&
    (if s.finished then true
     else
       match step s 0, step s 1 with
       | none, none => false
       | some s', none => checkAll fuel s'
       | none, some s' => checkAll fuel s'
       | some s', some s'' => checkAll fuel s' && checkAll fuel s'')

end pool

namespace ipdetect

/-- A non-loopback address is never classified `ClassLoopback`. -/
lemma classify_ne_loopback {ip : IPv4} (h : ip.isLoopback = false) :
    ClassifyIP ip ≠ .ClassLoopback := by
  unfold ClassifyIP
  rw [h]
  split_ifs <;> simp_all

/-- An address that falls in neither of the special branches of
`selectPartition` lands in the `other` bucket with class `ClassOther`. -/
lemma classify_other_of_not {ip : IPv4} (hl : ip.isLoopback = false)
    (hc : ClassifyIP ip ≠ .ClassCGNAT) (hr : ClassifyIP ip ≠ .ClassRFC1918) :
    ClassifyIP ip = .ClassOther := by
  have := classify_ne_loopback hl
  cases h : ClassifyIP ip <;> simp_all

/-- Soundness and completeness of the three-way partition of
`SelectBestIP`: each bucket holds exactly the eligible candidates of its
class, where a candidate is eligible when it parses, is not loopback and
is outside every Docker subnet. -/
lemma selectPartition_spec (d : List IPNet) (ips : List (Option IPv4)) :
    (∀ x ∈ (selectPartition d ips).1,
      some x ∈ ips ∧ x.isLoopback = false ∧ IsInDockerSubnet x d = false ∧
        ClassifyIP x = .ClassCGNAT) ∧
    (∀ x ∈ (selectPartition d ips).2.1,
      some x ∈ ips ∧ x.isLoopback = false ∧ IsInDockerSubnet x d = false ∧
        ClassifyIP x = .ClassRFC1918) ∧
    (∀ x ∈ (selectPartition d ips).2.2,
      some x ∈ ips ∧ x.isLoopback = false ∧ IsInDockerSubnet x d = false ∧
        ClassifyIP x = .ClassOther) ∧
    (∀ x, some x ∈ ips → x.isLoopback = false → IsInDockerSubnet x d = false →
      x ∈ (selectPartition d ips).1 ∨ x ∈ (selectPartition d ips).2.1 ∨
        x ∈ (selectPartition d ips).2.2) := by
  induction ips with
  | nil => simp [selectPartition]
  | cons hd rest ih =>
    obtain ⟨ih1, ih2, ih3, ih4⟩ := ih
    cases hd with
    | none =>
      refine ⟨?_, ?_, ?_, ?_⟩ <;>
        simp only [selectPartition, List.mem_cons] <;>
        intro x hx
      · exact ⟨Or.inr (ih1 x hx).1, (ih1 x hx).2⟩
      · exact ⟨Or.inr (ih2 x hx).1, (ih2 x hx).2⟩
      · exact ⟨Or.inr (ih3 x hx).1, (ih3 x hx).2⟩
      · intro h1 h2
        rcases hx with hx | hx
        · exact absurd hx (by simp)
        · exact ih4 x hx h1 h2
    | some ip =>
      show _ ∧ _ ∧ _ ∧ _
      simp only [selectPartition]
      by_cases hl : ip.isLoopback
      · simp only [hl, if_true]
        refine ⟨fun x hx => ⟨List.mem_cons_of_mem _ (ih1 x hx).1, (ih1 x hx).2⟩,
          fun x hx => ⟨List.mem_cons_of_mem _ (ih2 x hx).1, (ih2 x hx).2⟩,
          fun x hx => ⟨List.mem_cons_of_mem _ (ih3 x hx).1, (ih3 x hx).2⟩, ?_⟩
        intro x hx h1 h2
        rcases List.mem_cons.mp hx with hx | hx
        · cases Option.some.inj hx; rw [hl] at h1; cases h1
        · exact ih4 x hx h1 h2
      · rw [Bool.not_eq_true] at hl
        simp only [hl, if_false, Bool.false_eq_true]
        by_cases hdk : IsInDockerSubnet ip d
        · simp only [hdk, if_true]
          refine ⟨fun x hx => ⟨List.mem_cons_of_mem _ (ih1 x hx).1, (ih1 x hx).2⟩,
            fun x hx => ⟨List.mem_cons_of_mem _ (ih2 x hx).1, (ih2 x hx).2⟩,
            fun x hx => ⟨List.mem_cons_of_mem _ (ih3 x hx).1, (ih3 x hx).2⟩, ?_⟩
          intro x hx h1 h2
          rcases List.mem_cons.mp hx with hx | hx
          · cases Option.some.inj hx; rw [hdk] at h2; cases h2
          · exact ih4 x hx h1 h2
        · rw [Bool.not_eq_true] at hdk
          simp only [hdk, if_false, Bool.false_eq_true]
          cases hC : ClassifyIP ip with
          | ClassCGNAT =>
            refine ⟨?_, fun x hx => ⟨List.mem_cons_of_mem _ (ih2 x hx).1, (ih2 x hx).2⟩,
              fun x hx => ⟨List.mem_cons_of_mem _ (ih3 x hx).1, (ih3 x hx).2⟩, ?_⟩
            · intro x hx
              rcases List.mem_cons.mp hx with hx | hx
              · subst hx; exact ⟨List.mem_cons_self _ _, hl, hdk, hC⟩
              · exact ⟨List.mem_cons_of_mem _ (ih1 x hx).1, (ih1 x hx).2⟩
            · intro x hx h1 h2
              rcases List.mem_cons.mp hx with hx | hx
              · cases Option.some.inj hx; exact Or.inl (List.mem_cons_self _ _)
              · rcases ih4 x hx h1 h2 with h | h | h
                · exact Or.inl (List.mem_cons_of_mem _ h)
                · exact Or.inr (Or.inl h)
                · exact Or.inr (Or.inr h)
          | ClassRFC1918 =>
            refine ⟨fun x hx => ⟨List.mem_cons_of_mem _ (ih1 x hx).1, (ih1 x hx).2⟩, ?_,
              fun x hx => ⟨List.mem_cons_of_mem _ (ih3 x hx).1, (ih3 x hx).2⟩, ?_⟩
            · intro x hx
              rcases List.mem_cons.mp hx with hx | hx
              · subst hx; exact ⟨List.mem_cons_self _ _, hl, hdk, hC⟩
              · exact ⟨List.mem_cons_of_mem _ (ih2 x hx).1, (ih2 x hx).2⟩
            · intro x hx h1 h2
              rcases List.mem_cons.mp hx with hx | hx
              · cases Option.some.inj hx; exact Or.inr (Or.inl (List.mem_cons_self _ _))
              · rcases ih4 x hx h1 h2 with h | h | h
                · exact Or.inl h
                · exact Or.inr (Or.inl (List.mem_cons_of_mem _ h))
                · exact Or.inr (Or.inr h)
          | ClassOther =>
            refine ⟨fun x hx => ⟨List.mem_cons_of_mem _ (ih1 x hx).1, (ih1 x hx).2⟩,
              fun x hx => ⟨List.mem_cons_of_mem _ (ih2 x hx).1, (ih2 x hx).2⟩, ?_, ?_⟩
            · intro x hx
              rcases List.mem_cons.mp hx with hx | hx
              · subst hx; exact ⟨List.mem_cons_self _ _, hl, hdk, hC⟩
              · exact ⟨List.mem_cons_of_mem _ (ih3 x hx).1, (ih3 x hx).2⟩
            · intro x hx h1 h2
              rcases List.mem_cons.mp hx with hx | hx
              · cases Option.some.inj hx; exact Or.inr (Or.inr (List.mem_cons_self _ _))
              · rcases ih4 x hx h1 h2 with h | h | h
                · exact Or.inl h
                · exact Or.inr (Or.inl h)
                · exact Or.inr (Or.inr (List.mem_cons_of_mem _ h))
          | ClassLoopback => exact absurd hC (classify_ne_loopback hl)

end ipdetect

/-- C1: `ClassifyIP` is total and returns exactly the class prescribed by the
spec — Overlay/CGNAT for `100.[64..127].x.x`, Private for the three RFC1918
ranges, Loopback for `127.x.x.x`, otherwise Other — and agrees with the spec
rule on every IPv4 address; the listed concrete examples hold, and repeated
calls on the same input yield the same class (the function is pure). -/
theorem classifyIP_matches_spec (ip : ipdetect.IPv4) :
    ipdetect.ClassifyIP ip = ipdetect.classifySpec ip ∧
    ipdetect.ClassifyIP ip = ipdetect.ClassifyIP ip ∧
    ipdetect.ClassifyIP ⟨100, 70, 1, 1⟩ = .ClassCGNAT ∧
    ipdetect.ClassifyIP ⟨10, 0, 0, 5⟩ = .ClassRFC1918 ∧
    ipdetect.ClassifyIP ⟨172, 20, 5, 5⟩ = .ClassRFC1918 ∧
    ipdetect.ClassifyIP ⟨192, 168, 1, 1⟩ = .ClassRFC1918 ∧
    ipdetect.ClassifyIP ⟨8, 8, 8, 8⟩ = .ClassOther ∧
    ipdetect.ClassifyIP ⟨127, 0, 0, 1⟩ = .ClassLoopback := by
  refine ⟨?_, rfl, by decide, by decide, by decide, by decide, by decide, by decide⟩
  unfold ipdetect.ClassifyIP ipdetect.classifySpec ipdetect.IPv4.isLoopback
  split_ifs <;> first | rfl | (exfalso; omega) | (simp_all <;> omega) | simp_all

namespace ipdetect

/-- Every class has precedence rank at most 3. -/
lemma IPClass.rank_le_three (c : IPClass) : c.rank ≤ 3 := by
  cases c <;> simp [IPClass.rank]

/-- Rank 3 pins the class to CGNAT. -/
lemma IPClass.cgnat_of_rank {c : IPClass} (h : 3 ≤ c.rank) : c = .ClassCGNAT := by
  cases c <;> simp_all [IPClass.rank]

/-- The first three buckets of the inner address loop of
`detectPrimaryWithExclusions` coincide with the buckets of
`SelectBestIP`'s partition (the two loops differ only in how loopback
addresses are treated), and the fourth bucket holds only loopback
addresses of the list. -/
lemma addrLoop_eq (d : List IPNet) (addrs : List (Option IPv4)) :
    (detectPartition.addrLoop d addrs).1 = (selectPartition d addrs).1 ∧
    (detectPartition.addrLoop d addrs).2.1 = (selectPartition d addrs).2.1 ∧
    (detectPartition.addrLoop d addrs).2.2.1 = (selectPartition d addrs).2.2 ∧
    ∀ x ∈ (detectPartition.addrLoop d addrs).2.2.2, some x ∈ addrs ∧ x.isLoopback = true := by
  induction addrs with
  | nil => simp [detectPartition.addrLoop, selectPartition]
  | cons hd rest ih =>
    obtain ⟨ih1, ih2, ih3, ih4⟩ := ih
    cases hd with
    | none =>
      simp only [detectPartition.addrLoop, selectPartition]
      exact ⟨ih1, ih2, ih3, fun x hx => ⟨List.mem_cons_of_mem _ (ih4 x hx).1, (ih4 x hx).2⟩⟩
    | some ip =>
      simp only [detectPartition.addrLoop, selectPartition]
      by_cases hl : ip.isLoopback
      · simp only [hl, if_true]
        refine ⟨ih1, ih2, ih3, ?_⟩
        intro x hx
        rcases List.mem_cons.mp hx with hx | hx
        · subst hx; exact ⟨List.mem_cons_self _ _, hl⟩
        · exact ⟨List.mem_cons_of_mem _ (ih4 x hx).1, (ih4 x hx).2⟩
      · rw [Bool.not_eq_true] at hl
        simp only [hl, if_false, Bool.false_eq_true]
        by_cases hdk : IsInDockerSubnet ip d
        · simp only [hdk, if_true]
          exact ⟨ih1, ih2, ih3, fun x hx => ⟨List.mem_cons_of_mem _ (ih4 x hx).1, (ih4 x hx).2⟩⟩
        · rw [Bool.not_eq_true] at hdk
          simp only [hdk, if_false, Bool.false_eq_true]
          cases hC : ClassifyIP ip <;>
            exact ⟨by simp [ih1], by simp [ih2], by simp [ih3],
              fun x hx => ⟨List.mem_cons_of_mem _ (ih4 x hx).1, (ih4 x hx).2⟩⟩

/-- Soundness and completeness of the four-way partition of
`detectPrimaryWithExclusions`: the first three buckets hold exactly the
non-loopback, non-excluded candidates of their class; the loopback
bucket holds only loopback candidates (which, in the source, are
collected before the exclusion check). -/
lemma detectPartition_spec (d : List IPNet) (ifaces : List NetInterface) :
    (∀ x ∈ (detectPartition d ifaces).1,
      detectCandidate ifaces x ∧ x.isLoopback = false ∧ IsInDockerSubnet x d = false ∧
        ClassifyIP x = .ClassCGNAT) ∧
    (∀ x ∈ (detectPartition d ifaces).2.1,
      detectCandidate ifaces x ∧ x.isLoopback = false ∧ IsInDockerSubnet x d = false ∧
        ClassifyIP x = .ClassRFC1918) ∧
    (∀ x ∈ (detectPartition d ifaces).2.2.1,
      detectCandidate ifaces x ∧ x.isLoopback = false ∧ IsInDockerSubnet x d = false ∧
        ClassifyIP x = .ClassOther) ∧
    (∀ x ∈ (detectPartition d ifaces).2.2.2, detectCandidate ifaces x ∧ x.isLoopback = true) ∧
    (∀ x, detectCandidate ifaces x → x.isLoopback = false → IsInDockerSubnet x d = false →
      x ∈ (detectPartition d ifaces).1 ∨ x ∈ (detectPartition d ifaces).2.1 ∨
        x ∈ (detectPartition d ifaces).2.2.1) := by
  induction ifaces with
  | nil =>
    refine ⟨by simp [detectPartition], by simp [detectPartition], by simp [detectPartition],
      by simp [detectPartition], ?_⟩
    rintro x ⟨iface, hmem, -⟩ - -
    exact absurd hmem (List.not_mem_nil _)
  | cons iface rest ih =>
    obtain ⟨ih1, ih2, ih3, ih4, ih5⟩ := ih
    have candCons : ∀ x, detectCandidate rest x → detectCandidate (iface :: rest) x := by
      rintro x ⟨i, hi, hup, herr, hmem⟩
      exact ⟨i, List.mem_cons_of_mem _ hi, hup, herr, hmem⟩
    by_cases hup : iface.up
    · by_cases herr : iface.addrsErr
      · have hstep : detectPartition d (iface :: rest) = detectPartition d rest := by
          simp [detectPartition, hup, herr]
        rw [hstep]
        refine ⟨fun x hx => ⟨candCons x (ih1 x hx).1, (ih1 x hx).2⟩,
          fun x hx => ⟨candCons x (ih2 x hx).1, (ih2 x hx).2⟩,
          fun x hx => ⟨candCons x (ih3 x hx).1, (ih3 x hx).2⟩,
          fun x hx => ⟨candCons x (ih4 x hx).1, (ih4 x hx).2⟩, ?_⟩
        rintro x ⟨i, hi, hiup, hierr, hmem⟩ h1 h2
        rcases List.mem_cons.mp hi with hi | hi
        · subst hi; rw [herr] at hierr; cases hierr
        · exact ih5 x ⟨i, hi, hiup, hierr, hmem⟩ h1 h2
      · rw [Bool.not_eq_true] at herr
        have hstep : detectPartition d (iface :: rest) =
            (((detectPartition.addrLoop d iface.addrs).1 ++ (detectPartition d rest).1,
              (detectPartition.addrLoop d iface.addrs).2.1 ++ (detectPartition d rest).2.1,
              (detectPartition.addrLoop d iface.addrs).2.2.1 ++ (detectPartition d rest).2.2.1,
              (detectPartition.addrLoop d iface.addrs).2.2.2 ++ (detectPartition d rest).2.2.2)) := by
          simp [detectPartition, hup, herr]
        obtain ⟨he1, he2, he3, he4⟩ := addrLoop_eq d iface.addrs
        obtain ⟨hs1, hs2, hs3, hs4⟩ := selectPartition_spec d iface.addrs
        rw [hstep]
        have candHere : ∀ x, some x ∈ iface.addrs → detectCandidate (iface :: rest) x :=
          fun x hx => ⟨iface, List.mem_cons_self _ _, hup, herr, hx⟩
        refine ⟨?_, ?_, ?_, ?_, ?_⟩
        · intro x hx
          rcases List.mem_append.mp hx with hx | hx
          · rw [he1] at hx
            exact ⟨candHere x (hs1 x hx).1, (hs1 x hx).2⟩
          · exact ⟨candCons x (ih1 x hx).1, (ih1 x hx).2⟩
        · intro x hx
          rcases List.mem_append.mp hx with hx | hx
          · rw [he2] at hx
            exact ⟨candHere x (hs2 x hx).1, (hs2 x hx).2⟩
          · exact ⟨candCons x (ih2 x hx).1, (ih2 x hx).2⟩
        · intro x hx
          rcases List.mem_append.mp hx with hx | hx
          · rw [he3] at hx
            exact ⟨candHere x (hs3 x hx).1, (hs3 x hx).2⟩
          · exact ⟨candCons x (ih3 x hx).1, (ih3 x hx).2⟩
        · intro x hx
          rcases List.mem_append.mp hx with hx | hx
          · exact ⟨candHere x (he4 x hx).1, (he4 x hx).2⟩
          · exact ⟨candCons x (ih4 x hx).1, (ih4 x hx).2⟩
        · rintro x ⟨i, hi, hiup, hierr, hmem⟩ h1 h2
          rcases List.mem_cons.mp hi with hi | hi
          · subst hi
            rcases hs4 x hmem h1 h2 with h | h | h
            · exact Or.inl (List.mem_append.mpr (Or.inl (he1 ▸ h)))
            · exact Or.inr (Or.inl (List.mem_append.mpr (Or.inl (he2 ▸ h))))
            · exact Or.inr (Or.inr (List.mem_append.mpr (Or.inl (he3 ▸ h))))
          · rcases ih5 x ⟨i, hi, hiup, hierr, hmem⟩ h1 h2 with h | h | h
            · exact Or.inl (List.mem_append.mpr (Or.inr h))
            · exact Or.inr (Or.inl (List.mem_append.mpr (Or.inr h)))
            · exact Or.inr (Or.inr (List.mem_append.mpr (Or.inr h)))
    · rw [Bool.not_eq_true] at hup
      have hstep : detectPartition d (iface :: rest) = detectPartition d rest := by
        simp [detectPartition, hup]
      rw [hstep]
      refine ⟨fun x hx => ⟨candCons x (ih1 x hx).1, (ih1 x hx).2⟩,
        fun x hx => ⟨candCons x (ih2 x hx).1, (ih2 x hx).2⟩,
        fun x hx => ⟨candCons x (ih3 x hx).1, (ih3 x hx).2⟩,
        fun x hx => ⟨candCons x (ih4 x hx).1, (ih4 x hx).2⟩, ?_⟩
      rintro x ⟨i, hi, hiup, hierr, hmem⟩ h1 h2
      rcases List.mem_cons.mp hi with hi | hi
      · subst hi; rw [hup] at hiup; cases hiup
      · exact ih5 x ⟨i, hi, hiup, hierr, hmem⟩ h1 h2

end ipdetect

/-- C2 (counterexample): the claim, as stated, fails at a candidate list
containing only the loopback address `127.0.0.1` and no excluded
subnets — `Loopback` is then the highest class present among candidates
outside every excluded subnet, yet `SelectBestIP` returns the
empty-string result (`none`) because its loop drops loopback addresses
outright. -/
theorem selectBestIP_loopback_counterexample :
    ipdetect.SelectBestIP [some ⟨127, 0, 0, 1⟩] [] = none ∧
    ipdetect.ClassifyIP ⟨127, 0, 0, 1⟩ = .ClassLoopback ∧
    ipdetect.IsInDockerSubnet ⟨127, 0, 0, 1⟩ [] = false := by
  exact ⟨rfl, rfl, rfl⟩

/-- C2 (amended): call a candidate *eligible* when it parses as IPv4, is
not loopback, and lies inside no excluded subnet. `SelectBestIP` only
ever returns eligible candidates (so never an excluded or loopback
address); whenever an eligible candidate exists — in whatever position
of the input list, hence regardless of input order — it returns a
candidate of the highest class among eligible candidates, and in
particular an Overlay (CGNAT) address whenever an eligible one is
present. Local detection (`detectPrimaryWithExclusions`) satisfies the
same precedence over the addresses of up interfaces, with the caveats
that loopback addresses remain available as a last resort and bypass
the exclusion check: every non-loopback result lies outside every
excluded subnet. -/
theorem selectBestIP_precedence_amended (ips : List (Option ipdetect.IPv4))
    (d : List ipdetect.IPNet) (ifaces : List ipdetect.NetInterface) :
    (∀ ip, ipdetect.SelectBestIP ips d = some ip →
      some ip ∈ ips ∧ ip.isLoopback = false ∧ ipdetect.IsInDockerSubnet ip d = false) ∧
    ((∃ x, some x ∈ ips ∧ x.isLoopback = false ∧ ipdetect.IsInDockerSubnet x d = false) →
      ∃ best, ipdetect.SelectBestIP ips d = some best ∧
        ∀ x, some x ∈ ips → x.isLoopback = false → ipdetect.IsInDockerSubnet x d = false →
          (ipdetect.ClassifyIP x).rank ≤ (ipdetect.ClassifyIP best).rank) ∧
    ((∃ x, some x ∈ ips ∧ x.isLoopback = false ∧ ipdetect.IsInDockerSubnet x d = false ∧
        ipdetect.ClassifyIP x = .ClassCGNAT) →
      ∃ best, ipdetect.SelectBestIP ips d = some best ∧
        ipdetect.ClassifyIP best = .ClassCGNAT) ∧
    (∀ ip, ipdetect.detectPrimaryWithExclusions ifaces d = .ok ip → ip.isLoopback = false →
      ipdetect.IsInDockerSubnet ip d = false) ∧
    ((∃ x, ipdetect.detectCandidate ifaces x ∧ x.isLoopback = false ∧
        ipdetect.IsInDockerSubnet x d = false) →
      ∃ best, ipdetect.detectPrimaryWithExclusions ifaces d = .ok best ∧
        ∀ x, ipdetect.detectCandidate ifaces x → x.isLoopback = false →
          ipdetect.IsInDockerSubnet x d = false →
          (ipdetect.ClassifyIP x).rank ≤ (ipdetect.ClassifyIP best).rank) := by
  obtain ⟨hs1, hs2, hs3, hs4⟩ := ipdetect.selectPartition_spec d ips
  obtain ⟨hd1, hd2, hd3, hd4, hd5⟩ := ipdetect.detectPartition_spec d ifaces
  have headMem : ∀ {l : List ipdetect.IPv4} {b : ipdetect.IPv4} {t : List ipdetect.IPv4},
      l = b :: t → b ∈ l := fun h => h ▸ List.mem_cons_self _ _
  refine ⟨?_, ?_, ?_, ?_, ?_⟩
  · intro ip h
    unfold ipdetect.SelectBestIP at h
    rcases h1 : (ipdetect.selectPartition d ips).1 with _ | ⟨b1, t1⟩ <;> rw [h1] at h
    · rcases h2 : (ipdetect.selectPartition d ips).2.1 with _ | ⟨b2, t2⟩ <;> rw [h2] at h
      · rcases h3 : (ipdetect.selectPartition d ips).2.2 with _ | ⟨b3, t3⟩ <;> rw [h3] at h
        · cases h
        · cases Option.some.inj h
          exact ⟨(hs3 ip (headMem h3)).1, (hs3 ip (headMem h3)).2.1, (hs3 ip (headMem h3)).2.2.1⟩
      · cases Option.some.inj h
        exact ⟨(hs2 ip (headMem h2)).1, (hs2 ip (headMem h2)).2.1, (hs2 ip (headMem h2)).2.2.1⟩
    · cases Option.some.inj h
      exact ⟨(hs1 ip (headMem h1)).1, (hs1 ip (headMem h1)).2.1, (hs1 ip (headMem h1)).2.2.1⟩
  · rintro ⟨x, hx, hxl, hxd⟩
    unfold ipdetect.SelectBestIP
    rcases h1 : (ipdetect.selectPartition d ips).1 with _ | ⟨b1, t1⟩
    · rcases h2 : (ipdetect.selectPartition d ips).2.1 with _ | ⟨b2, t2⟩
      · rcases h3 : (ipdetect.selectPartition d ips).2.2 with _ | ⟨b3, t3⟩
        · rcases hs4 x hx hxl hxd with h | h | h
          · rw [h1] at h; cases h
          · rw [h2] at h; cases h
          · rw [h3] at h; cases h
        · refine ⟨b3, rfl, ?_⟩
          intro y hy hyl hyd
          have hb3 := (hs3 b3 (headMem h3)).2.2.2
          rcases hs4 y hy hyl hyd with h | h | h
          · rw [h1] at h; cases h
          · rw [h2] at h; cases h
          · have := (hs3 y h).2.2.2
            rw [this, hb3]
      · refine ⟨b2, rfl, ?_⟩
        intro y hy hyl hyd
        have hb2 := (hs2 b2 (headMem h2)).2.2.2
        rcases hs4 y hy hyl hyd with h | h | h
        · rw [h1] at h; cases h
        · rw [(hs2 y h).2.2.2, hb2]
        · rw [(hs3 y h).2.2.2, hb2]
          simp [ipdetect.IPClass.rank]
    · refine ⟨b1, rfl, ?_⟩
      intro y hy hyl hyd
      rw [(hs1 b1 (headMem h1)).2.2.2]
      exact (ipdetect.ClassifyIP y).rank_le_three
  · rintro ⟨x, hx, hxl, hxd, hxc⟩
    unfold ipdetect.SelectBestIP
    have hmem : x ∈ (ipdetect.selectPartition d ips).1 := by
      rcases hs4 x hx hxl hxd with h | h | h
      · exact h
      · rw [(hs2 x h).2.2.2] at hxc; cases hxc
      · rw [(hs3 x h).2.2.2] at hxc; cases hxc
    rcases h1 : (ipdetect.selectPartition d ips).1 with _ | ⟨b1, t1⟩
    · rw [h1] at hmem; cases hmem
    · exact ⟨b1, rfl, (hs1 b1 (headMem h1)).2.2.2⟩
  · intro ip h hl
    unfold ipdetect.detectPrimaryWithExclusions at h
    rcases h1 : (ipdetect.detectPartition d ifaces).1 with _ | ⟨b1, t1⟩ <;> rw [h1] at h
    · rcases h2 : (ipdetect.detectPartition d ifaces).2.1 with _ | ⟨b2, t2⟩ <;> rw [h2] at h
      · rcases h3 : (ipdetect.detectPartition d ifaces).2.2.1 with _ | ⟨b3, t3⟩ <;> rw [h3] at h
        · rcases h4 : (ipdetect.detectPartition d ifaces).2.2.2 with _ | ⟨b4, t4⟩ <;> rw [h4] at h
          · cases h
          · cases Except.ok.inj h
            rw [(hd4 ip (headMem h4)).2] at hl; cases hl
        · cases Except.ok.inj h
          exact (hd3 ip (headMem h3)).2.2.1
      · cases Except.ok.inj h
        exact (hd2 ip (headMem h2)).2.2.1
    · cases Except.ok.inj h
      exact (hd1 ip (headMem h1)).2.2.1
  · rintro ⟨x, hx, hxl, hxd⟩
    unfold ipdetect.detectPrimaryWithExclusions
    rcases h1 : (ipdetect.detectPartition d ifaces).1 with _ | ⟨b1, t1⟩
    · rcases h2 : (ipdetect.detectPartition d ifaces).2.1 with _ | ⟨b2, t2⟩
      · rcases h3 : (ipdetect.detectPartition d ifaces).2.2.1 with _ | ⟨b3, t3⟩
        · rcases hd5 x hx hxl hxd with h | h | h
          · rw [h1] at h; cases h
          · rw [h2] at h; cases h
          · rw [h3] at h; cases h
        · refine ⟨b3, rfl, ?_⟩
          intro y hy hyl hyd
          have hb3 := (hd3 b3 (headMem h3)).2.2.2
          rcases hd5 y hy hyl hyd with h | h | h
          · rw [h1] at h; cases h
          · rw [h2] at h; cases h
          · rw [(hd3 y h).2.2.2, hb3]
      · refine ⟨b2, rfl, ?_⟩
        intro y hy hyl hyd
        have hb2 := (hd2 b2 (headMem h2)).2.2.2
        rcases hd5 y hy hyl hyd with h | h | h
        · rw [h1] at h; cases h
        · rw [(hd2 y h).2.2.2, hb2]
        · rw [(hd3 y h).2.2.2, hb2]
          simp [ipdetect.IPClass.rank]
    · refine ⟨b1, rfl, ?_⟩
      intro y hy hyl hyd
      rw [(hd1 b1 (headMem h1)).2.2.2]
      exact (ipdetect.ClassifyIP y).rank_le_three

/-- Witness for the amended C2 theorem at a concrete mixed candidate
list: with candidates `8.8.8.8` and `100.70.1.1` and no exclusions,
selection returns an Overlay-class address. -/
theorem selectBestIP_precedence_witness :
    ∃ best, ipdetect.SelectBestIP [some ⟨8, 8, 8, 8⟩, some ⟨100, 70, 1, 1⟩] [] = some best ∧
      ipdetect.ClassifyIP best = .ClassCGNAT :=
  (selectBestIP_precedence_amended [some ⟨8, 8, 8, 8⟩, some ⟨100, 70, 1, 1⟩] [] []).2.2.1
    ⟨⟨100, 70, 1, 1⟩, by decide, by decide, by decide, by decide⟩

namespace services

/-- The probing loop returns the first candidate whose probe reports
unused, and its trace is the in-use prefix followed by that candidate
(or the whole list when every probe reports in use). -/
lemma probeLoop_spec (inUse : ipdetect.IPv4 → Bool) (l : List ipdetect.IPv4) :
    (probeLoop inUse l).1 = l.find? (fun c => !inUse c) ∧
    (probeLoop inUse l).2 =
      (match l.find? (fun c => !inUse c) with
       | some c => l.takeWhile inUse ++ [c]
       | none => l) := by
  induction l with
  | nil => exact ⟨rfl, rfl⟩
  | cons c rest ih =>
    obtain ⟨ih1, ih2⟩ := ih
    by_cases hc : inUse c
    · have hfind : (c :: rest).find? (fun x => !inUse x) = rest.find? (fun x => !inUse x) :=
        List.find?_cons_of_neg _ (by simp [hc])
      refine ⟨?_, ?_⟩
      · simp [probeLoop, hc, hfind, ih1]
      · simp only [probeLoop, hc, if_true, hfind, ih2, List.takeWhile_cons]
        cases hf : rest.find? (fun x => !inUse x) <;> simp [hf, hc]
    · rw [Bool.not_eq_true] at hc
      have hfind : (c :: rest).find? (fun x => !inUse x) = some c :=
        List.find?_cons_of_pos _ (by simp [hc])
      refine ⟨?_, ?_⟩
      · simp [probeLoop, hc, hfind]
      · simp [probeLoop, hc, hfind, List.takeWhile_cons]

/-- Every probed candidate has last octet in `[245, 254]`, differs from
the interface's own address, and shares the network's first three
octets. -/
lemma vipCandidates_mem {network ifaceIP c : ipdetect.IPv4}
    (h : c ∈ vipCandidates network ifaceIP) :
    245 ≤ c.o4 ∧ c.o4 ≤ 254 ∧ c ≠ ifaceIP ∧ c.o1 = network.o1 ∧ c.o2 = network.o2 ∧
      c.o3 = network.o3 := by
  unfold vipCandidates at h
  rw [List.mem_filterMap] at h
  obtain ⟨i, hi, hf⟩ := h
  rw [List.mem_map] at hi
  obtain ⟨k, hk, rfl⟩ := hi
  rw [List.mem_range] at hk
  by_cases he : (⟨network.o1, network.o2, network.o3, 254 - k⟩ : ipdetect.IPv4) = ifaceIP
  · simp [he] at hf
  · simp only [he, if_false] at hf
    cases Option.some.inj hf
    refine ⟨show 245 ≤ 254 - k by omega, show 254 - k ≤ 254 by omega, he, rfl, rfl, rfl⟩

/-- The probe trace — in-use prefix plus the first free candidate — is a
sublist of the candidate list. -/
lemma takeWhile_find_sublist (inUse : ipdetect.IPv4 → Bool) (l : List ipdetect.IPv4)
    (b : ipdetect.IPv4) (h : l.find? (fun c => !inUse c) = some b) :
    (l.takeWhile inUse ++ [b]).Sublist l := by
  induction l with
  | nil => cases h
  | cons c rest ih =>
    by_cases hc : inUse c
    · rw [List.find?_cons_of_neg _ (by simp [hc])] at h
      have := ih h
      simpa [List.takeWhile_cons, hc] using this.cons₂ c
    · rw [Bool.not_eq_true] at hc
      rw [List.find?_cons_of_pos _ (by simp [hc])] at h
      cases Option.some.inj h
      simpa [List.takeWhile_cons, hc] using (List.nil_sublist rest).cons₂ c

/-- `filterMap` by a function that preserves the scanned last octet
keeps a strictly-descending scan order. -/
lemma pairwise_filterMap_o4 (f : Nat → Option ipdetect.IPv4)
    (hf : ∀ i c, f i = some c → c.o4 = i) (l : List Nat)
    (hl : l.Pairwise (fun a b => b < a)) :
    (l.filterMap f).Pairwise (fun a b => b.o4 < a.o4) := by
  induction l with
  | nil => simp
  | cons a t ih =>
    rw [List.pairwise_cons] at hl
    obtain ⟨ha, ht⟩ := hl
    cases hfa : f a with
    | none => simpa [List.filterMap_cons, hfa] using ih ht
    | some b =>
      rw [List.filterMap_cons, hfa, List.pairwise_cons]
      refine ⟨?_, ih ht⟩
      intro y hy
      rw [List.mem_filterMap] at hy
      obtain ⟨j, hj, hfj⟩ := hy
      rw [hf j y hfj, hf a b hfa]
      exact ha j hj

/-- The probed candidate sequence descends strictly in its last octet. -/
lemma vipCandidates_pairwise (network ifaceIP : ipdetect.IPv4) :
    (vipCandidates network ifaceIP).Pairwise (fun a b => b.o4 < a.o4) := by
  unfold vipCandidates
  refine pairwise_filterMap_o4 _ ?_ _ ?_
  · intro i c h
    by_cases he : (⟨network.o1, network.o2, network.o3, i⟩ : ipdetect.IPv4) = ifaceIP
    · simp [he] at h
    · simp only [he, if_false] at h
      cases Option.some.inj h
      rfl
  · rw [List.pairwise_map]
    refine (List.pairwise_lt_range 10).imp_of_mem ?_
    intro a b ha hb hab
    rw [List.mem_range] at hb
    omega

end services

/-- C3: `findUnusedVIP` probes the descending candidate sequence
`.254` down to `.245` on the interface's network, skipping the
interface's own address, sequentially: it returns the first probed
candidate whose duplicate-address probe reports unused, and its probe
trace is exactly the in-use prefix followed by that candidate (no
probes after the first free one); when every candidate reports in use
it fails with the error naming the probed range. Every probed
candidate has last octet in `[245, 254]`, shares the network's first
three octets, differs from the interface address, and the trace
descends strictly. Concretely, with `.254` in use and `.253` free, it
selects `.253` after probing exactly `[.254, .253]`. -/
theorem findUnusedVIP_probing (ifaceIP : ipdetect.IPv4) (maskBits : Nat)
    (inUse : ipdetect.IPv4 → Bool) :
    (services.findUnusedVIP ifaceIP maskBits inUse).1 =
      (match (services.vipCandidates (services.maskIPv4 ifaceIP maskBits) ifaceIP).find?
          (fun c => !inUse c) with
       | some c => .ok c
       | none => .error ⟨services.maskIPv4 ifaceIP maskBits⟩) ∧
    (services.findUnusedVIP ifaceIP maskBits inUse).2 =
      (match (services.vipCandidates (services.maskIPv4 ifaceIP maskBits) ifaceIP).find?
          (fun c => !inUse c) with
       | some c =>
         (services.vipCandidates (services.maskIPv4 ifaceIP maskBits) ifaceIP).takeWhile inUse
           ++ [c]
       | none => services.vipCandidates (services.maskIPv4 ifaceIP maskBits) ifaceIP) ∧
    (∀ c ∈ (services.findUnusedVIP ifaceIP maskBits inUse).2,
      245 ≤ c.o4 ∧ c.o4 ≤ 254 ∧ c ≠ ifaceIP ∧
        c.o1 = (services.maskIPv4 ifaceIP maskBits).o1 ∧
        c.o2 = (services.maskIPv4 ifaceIP maskBits).o2 ∧
        c.o3 = (services.maskIPv4 ifaceIP maskBits).o3) ∧
    List.Chain' (fun a b => b.o4 < a.o4) (services.findUnusedVIP ifaceIP maskBits inUse).2 ∧
    services.findUnusedVIP ⟨192, 168, 1, 10⟩ 24 (fun c => decide (c.o4 = 254)) =
      (.ok ⟨192, 168, 1, 253⟩, [⟨192, 168, 1, 254⟩, ⟨192, 168, 1, 253⟩]) := by
  obtain ⟨hp1, hp2⟩ := services.probeLoop_spec inUse
    (services.vipCandidates (services.maskIPv4 ifaceIP maskBits) ifaceIP)
  have htrace : (services.findUnusedVIP ifaceIP maskBits inUse).2 =
      (services.probeLoop inUse
        (services.vipCandidates (services.maskIPv4 ifaceIP maskBits) ifaceIP)).2 := by
    unfold services.findUnusedVIP
    cases h : (services.probeLoop inUse
        (services.vipCandidates (services.maskIPv4 ifaceIP maskBits) ifaceIP)).1 <;>
      simp [h]
  have hsubset : ∀ c ∈ (services.findUnusedVIP ifaceIP maskBits inUse).2,
      c ∈ services.vipCandidates (services.maskIPv4 ifaceIP maskBits) ifaceIP := by
    intro c hc
    rw [htrace, hp2] at hc
    cases hf : (services.vipCandidates (services.maskIPv4 ifaceIP maskBits) ifaceIP).find?
        (fun c => !inUse c) with
    | none => rw [hf] at hc; exact hc
    | some b =>
      rw [hf] at hc
      rcases List.mem_append.mp hc with hc | hc
      · exact (List.takeWhile_prefix inUse).subset hc
      · rw [List.mem_singleton.mp hc]
        exact List.mem_of_find?_eq_some hf
  refine ⟨?_, ?_, ?_, ?_, rfl⟩
  · unfold services.findUnusedVIP
    cases h : (services.probeLoop inUse
        (services.vipCandidates (services.maskIPv4 ifaceIP maskBits) ifaceIP)).1 <;>
      rw [h] at hp1 <;> rw [← hp1]
  · rw [htrace, hp2]
  · intro c hc
    exact services.vipCandidates_mem (hsubset c hc)
  · rw [htrace, hp2]
    cases hf : (services.vipCandidates (services.maskIPv4 ifaceIP maskBits) ifaceIP).find?
        (fun c => !inUse c) with
    | none =>
      exact (services.vipCandidates_pairwise _ _).chain'
    | some b =>
      exact ((services.vipCandidates_pairwise _ _).sublist
        (services.takeWhile_find_sublist inUse _ b hf)).chain'

/-- Witness for C3 at a concrete interface address and probe oracle:
the probed trace starts at `.254`, and its first element satisfies the
probed-range shape. -/
theorem findUnusedVIP_probing_witness :
    245 ≤ (⟨192, 168, 1, 254⟩ : ipdetect.IPv4).o4 ∧
      (⟨192, 168, 1, 254⟩ : ipdetect.IPv4).o4 ≤ 254 ∧
      (⟨192, 168, 1, 254⟩ : ipdetect.IPv4) ≠ (⟨192, 168, 1, 10⟩ : ipdetect.IPv4) ∧
      (⟨192, 168, 1, 254⟩ : ipdetect.IPv4).o1 = (services.maskIPv4 ⟨192, 168, 1, 10⟩ 24).o1 ∧
      (⟨192, 168, 1, 254⟩ : ipdetect.IPv4).o2 = (services.maskIPv4 ⟨192, 168, 1, 10⟩ 24).o2 ∧
      (⟨192, 168, 1, 254⟩ : ipdetect.IPv4).o3 = (services.maskIPv4 ⟨192, 168, 1, 10⟩ 24).o3 :=
  (findUnusedVIP_probing ⟨192, 168, 1, 10⟩ 24 (fun c => decide (c.o4 = 254))).2.2.1
    ⟨192, 168, 1, 254⟩ (by decide)

/-- C4: `resolveNodeConfig` assigns node `i` the priority `base − i`
unless the node carries an explicit (non-auto, non-empty, parseable)
priority override, in which case the override value is used; it assigns
state MASTER to node 0 and BACKUP to every other node unless the node
carries an explicit state override. For 3 declared nodes with no
overrides the planner yields priorities `[100, 99, 98]` and states
`[MASTER, BACKUP, BACKUP]`. -/
theorem resolveNodeConfig_priority_state (node : config.NodeConfig) (i : Nat)
    (iface vipCIDR : String) (p : Int) :
    ((config.IsAutoValue node.Keepalived.Priority = true ∨ node.Keepalived.Priority = "") →
      (services.resolveNodeConfig node i iface vipCIDR).Priority =
        defaults.KeepalivedBasePriority - i) ∧
    ((config.IsAutoValue node.Keepalived.Priority = false ∧ node.Keepalived.Priority ≠ "" ∧
        services.atoiGo node.Keepalived.Priority = some p) →
      (services.resolveNodeConfig node i iface vipCIDR).Priority = p) ∧
    ((config.IsAutoValue node.Keepalived.State = true ∨ node.Keepalived.State = "") →
      (services.resolveNodeConfig node i iface vipCIDR).State =
        if i = 0 then "MASTER" else "BACKUP") ∧
    (services.planNodes [⟨"n1", ⟨"", ""⟩⟩, ⟨"n2", ⟨"", ""⟩⟩, ⟨"n3", ⟨"", ""⟩⟩]
        "eth0" "192.168.1.250/24").map (fun c => (c.Priority, c.State)) =
      [((100 : Int), "MASTER"), (99, "BACKUP"), (98, "BACKUP")] := by
  refine ⟨?_, ?_, ?_, rfl⟩
  · rintro (h | h) <;> simp [services.resolveNodeConfig, h]
  · rintro ⟨h1, h2, h3⟩
    simp [services.resolveNodeConfig, h1, h2, h3]
  · rintro (h | h) <;> simp [services.resolveNodeConfig, h]

/-- Witness for C4 at a concrete node with no overrides at index 2: the
assigned priority is the base minus the index and the state is BACKUP. -/
theorem resolveNodeConfig_priority_state_witness :
    (services.resolveNodeConfig ⟨"w1", ⟨"", ""⟩⟩ 2 "eth0" "192.168.1.250/24").Priority =
      defaults.KeepalivedBasePriority - 2 ∧
    (services.resolveNodeConfig ⟨"w1", ⟨"", ""⟩⟩ 2 "eth0" "192.168.1.250/24").State =
      "BACKUP" :=
  ⟨(resolveNodeConfig_priority_state ⟨"w1", ⟨"", ""⟩⟩ 2 "eth0" "192.168.1.250/24" 0).1
      (Or.inr rfl),
    by
      have h := (resolveNodeConfig_priority_state ⟨"w1", ⟨"", ""⟩⟩ 2 "eth0"
        "192.168.1.250/24" 0).2.2.1 (Or.inr rfl)
      simpa using h⟩

/-- C8 (code bug): the planner does not keep priorities inside the
documented 1–254 range. A node whose explicit priority override parses
as 300 is assigned priority 300, and a node at index 120 with no
override is assigned priority −20; both escape the range the source's
own field documentation (`// VRRP priority (1-254)`) and the data model
prescribe. -/
theorem resolveNodeConfig_priority_range_violation :
    (services.resolveNodeConfig ⟨"n1", ⟨"300", ""⟩⟩ 0 "eth0" "192.168.1.250/24").Priority =
      300 ∧
    ¬((1 : Int) ≤ 300 ∧ (300 : Int) ≤ 254) ∧
    (services.resolveNodeConfig ⟨"n2", ⟨"", ""⟩⟩ 120 "eth0" "192.168.1.250/24").Priority =
      -20 ∧
    ¬((1 : Int) ≤ -20) := by
  exact ⟨by decide, by decide, by decide, by decide⟩

/-- C5 (code bug): the dial/handshake closure of `NewClient` reports
non-retryable errors only through the error message, so `retry.Do`
retries them like any other failure. With a dial that always fails with
the message "invalid address" — classified non-retryable by
`isRetryableNetworkError` — the dial is attempted 3 times (the
`SSHConfig` attempt budget), not exactly once as specified. -/
theorem newClient_nonretryable_dial_retried :
    sshclient.isRetryableNetworkError "invalid address" = false ∧
    (sshclient.NewClientConnect "host1" "host1:22"
        ⟨fun _ => .error "invalid address", fun _ => .ok ()⟩ (fun _ => false)).attempts = 3 ∧
    (sshclient.NewClientConnect "host1" "host1:22"
        ⟨fun _ => .error "invalid address", fun _ => .ok ()⟩ (fun _ => false)).attempts ≠ 1 ∧
    sshclient.NewClientConnect "host1" "host1:22"
        ⟨fun _ => .error "invalid address", fun _ => .ok ()⟩ (fun _ => false) =
      .exhausted "ssh-connect-host1" 3
        "failed to dial host1:22 (non-retryable): invalid address" := by
  exact ⟨by decide, by decide, by decide, by decide⟩

namespace retry

/-- If every attempt before `k` fails without cancellation and attempt
`k` succeeds, the loop returns success at attempt `k`. -/
lemma doFrom_ok {E : Type} (cfg : Config) (fn : Nat → Option E) (cd : Nat → Bool)
    (k : Nat) (hk : k ≤ cfg.MaxAttempts) :
    ∀ fuel a b, a + fuel = cfg.MaxAttempts + 1 → a ≤ k →
      (∀ j, a ≤ j → j < k → (fn j).isSome ∧ cd j = false) → fn k = none →
      doFrom cfg fn cd b a fuel = .ok k := by
  intro fuel
  induction fuel with
  | zero =>
    intro a b hfuel hak hfail hsucc
    omega
  | succ fuel ih =>
    intro a b hfuel hak hfail hsucc
    rcases Nat.eq_or_lt_of_le hak with rfl | hlt
    · simp [doFrom, hsucc]
    · obtain ⟨hfa, hca⟩ := hfail a le_rfl hlt
      cases hfn : fn a with
      | none => rw [hfn] at hfa; cases hfa
      | some e =>
        have hmax : a < cfg.MaxAttempts := by omega
        simp only [doFrom, hfn, hmax, if_true, hca, Bool.false_eq_true, if_false]
        exact ih (a + 1) _ (by omega) (by omega)
          (fun j hj1 hj2 => hfail j (by omega) hj2) hsucc

/-- If every attempt up to `MaxAttempts` fails and no cancellation
occurs, the loop returns the exhausted error carrying the operation
label, the attempt count `MaxAttempts`, and the last attempt's error. -/
lemma doFrom_exhausted {E : Type} (cfg : Config) (fn : Nat → Option E) (cd : Nat → Bool)
    (hfail : ∀ j, 1 ≤ j → j ≤ cfg.MaxAttempts → (fn j).isSome)
    (hcd : ∀ j, cd j = false) :
    ∀ fuel a b, a + fuel = cfg.MaxAttempts + 1 → 1 ≤ a → a ≤ cfg.MaxAttempts →
      ∃ e, fn cfg.MaxAttempts = some e ∧
        doFrom cfg fn cd b a fuel = .exhausted cfg.Operation cfg.MaxAttempts e := by
  intro fuel
  induction fuel with
  | zero =>
    intro a b hfuel ha1 hamax
    omega
  | succ fuel ih =>
    intro a b hfuel ha1 hamax
    have hfa := hfail a ha1 hamax
    cases hfn : fn a with
    | none => rw [hfn] at hfa; cases hfa
    | some e =>
      by_cases hmax : a < cfg.MaxAttempts
      · simp only [doFrom, hfn, hmax, if_true, hcd a, Bool.false_eq_true, if_false]
        exact ih (a + 1) _ (by omega) (by omega) (by omega)
      · have : a = cfg.MaxAttempts := by omega
        subst this
        refine ⟨e, hfn, ?_⟩
        simp [doFrom, hfn, hmax]

/-- If the context reports done during the backoff wait after a failed
attempt `k < MaxAttempts` (all earlier attempts having failed without
cancellation), the loop aborts at attempt `k` with the cancellation
result — no further attempts are made. -/
lemma doFrom_cancelled {E : Type} (cfg : Config) (fn : Nat → Option E) (cd : Nat → Bool)
    (k : Nat) (hk : k < cfg.MaxAttempts) (hfk : (fn k).isSome) (hck : cd k = true) :
    ∀ fuel a b, a + fuel = cfg.MaxAttempts + 1 → a ≤ k →
      (∀ j, a ≤ j → j < k → (fn j).isSome ∧ cd j = false) →
      doFrom cfg fn cd b a fuel = .cancelled cfg.Operation k := by
  intro fuel
  induction fuel with
  | zero =>
    intro a b hfuel hak hfail
    omega
  | succ fuel ih =>
    intro a b hfuel hak hfail
    rcases Nat.eq_or_lt_of_le hak with rfl | hlt
    · cases hfn : fn a with
      | none => rw [hfn] at hfk; cases hfk
      | some e => simp [doFrom, hfn, hk, hck]
    · obtain ⟨hfa, hca⟩ := hfail a le_rfl hlt
      cases hfn : fn a with
      | none => rw [hfn] at hfa; cases hfa
      | some e =>
        have hmax : a < cfg.MaxAttempts := by omega
        simp only [doFrom, hfn, hmax, if_true, hca, Bool.false_eq_true, if_false]
        exact ih (a + 1) _ (by omega) (by omega)
          (fun j hj1 hj2 => hfail j (by omega) hj2)

/-- The loop never runs the operation more often than `MaxAttempts`. -/
lemma doFrom_attempts_le {E : Type} (cfg : Config) (fn : Nat → Option E) (cd : Nat → Bool) :
    ∀ fuel a b, a + fuel = cfg.MaxAttempts + 1 →
      (doFrom cfg fn cd b a fuel).attempts ≤ cfg.MaxAttempts := by
  intro fuel
  induction fuel with
  | zero =>
    intro a b hfuel
    simp [doFrom, Result.attempts]
  | succ fuel ih =>
    intro a b hfuel
    cases hfn : fn a with
    | none =>
      simp only [doFrom, hfn]
      simp [Result.attempts]
      omega
    | some e =>
      by_cases hmax : a < cfg.MaxAttempts
      · by_cases hca : cd a
        · simp only [doFrom, hfn, hmax, if_true, hca]
          simp [Result.attempts]
          omega
        · rw [Bool.not_eq_true] at hca
          simp only [doFrom, hfn, hmax, if_true, hca, Bool.false_eq_true, if_false]
          exact ih (a + 1) _ (by omega)
      · simp only [doFrom, hfn, hmax, if_false]
        simp [Result.attempts]
        omega

end retry

/-- C6: `retry.Do` calls the wrapped operation at most `MaxAttempts`
times; when the operation first succeeds on attempt `k ≤ MaxAttempts`
(failing without cancellation before), it is called exactly `k` times
and `Do` returns success; when the operation fails on every attempt
and nothing is cancelled, it is called exactly `MaxAttempts` times and
`Do` returns the exhausted error wrapping the last attempt's error,
whose rendered message names the operation label and the attempt
count. -/
theorem retryDo_attempt_counts (cfg : retry.Config) (fn : Nat → Option String)
    (cd : Nat → Bool) (k : Nat) :
    (retry.Do cfg fn cd).attempts ≤ cfg.MaxAttempts ∧
    (1 ≤ k → k ≤ cfg.MaxAttempts →
      (∀ j, 1 ≤ j → j < k → (fn j).isSome ∧ cd j = false) → fn k = none →
      retry.Do cfg fn cd = .ok k) ∧
    (1 ≤ cfg.MaxAttempts → (∀ j, 1 ≤ j → j ≤ cfg.MaxAttempts → (fn j).isSome) →
      (∀ j, cd j = false) →
      ∃ e, fn cfg.MaxAttempts = some e ∧
        retry.Do cfg fn cd = .exhausted cfg.Operation cfg.MaxAttempts e ∧
        (retry.Result.exhausted cfg.Operation cfg.MaxAttempts e).errorMessage =
          some (cfg.Operation ++ ": failed after " ++ toString cfg.MaxAttempts ++
            " attempts: " ++ e)) := by
  refine ⟨?_, ?_, ?_⟩
  · exact retry.doFrom_attempts_le cfg fn cd cfg.MaxAttempts 1 _ (by omega)
  · intro hk1 hkmax hfail hsucc
    exact retry.doFrom_ok cfg fn cd k hkmax cfg.MaxAttempts 1 _ (by omega) hk1
      (fun j hj1 hj2 => hfail j hj1 hj2) hsucc
  · intro hmax hfail hcd
    obtain ⟨e, he, hdo⟩ := retry.doFrom_exhausted cfg fn cd hfail hcd cfg.MaxAttempts 1 _
      (by omega) le_rfl hmax
    exact ⟨e, he, hdo, rfl⟩

/-- Witness for C6: an operation that always fails under the SSH retry
policy (`max = 3`) is retried to exhaustion and reported with the
label and attempt count. -/
theorem retryDo_attempt_counts_witness :
    retry.Do (retry.SSHConfig "op") (fun _ => some "boom") (fun _ => false) =
      .exhausted "op" 3 "boom" := by
  obtain ⟨e, he, hdo, -⟩ :=
    (retryDo_attempt_counts (retry.SSHConfig "op") (fun _ => some "boom")
      (fun _ => false) 1).2.2 (by decide) (fun j hj1 hj2 => rfl) (fun j => rfl)
  cases Option.some.inj he
  exact hdo

/-- C7: if the context is cancelled during the backoff wait after a
failed attempt `k < MaxAttempts`, the retry loop aborts at attempt `k`
— no further attempts — and returns the cancellation result, whose
message reports the cancellation and not the underlying operation
error (the result is distinct from any exhausted-error result). -/
theorem retryDo_cancelled_during_backoff (cfg : retry.Config) (fn : Nat → Option String)
    (cd : Nat → Bool) (k : Nat) :
    1 ≤ k → k < cfg.MaxAttempts →
    (∀ j, 1 ≤ j → j < k → (fn j).isSome ∧ cd j = false) →
    (fn k).isSome → cd k = true →
    retry.Do cfg fn cd = .cancelled cfg.Operation k ∧
    (retry.Do cfg fn cd).attempts = k ∧
    (∀ e, retry.Do cfg fn cd ≠ .exhausted cfg.Operation k e) ∧
    (retry.Result.cancelled cfg.Operation k : retry.Result String).errorMessage =
      some (cfg.Operation ++ ": context cancelled after " ++ toString k ++
        " attempts: context canceled") := by
  intro hk1 hkmax hfail hfk hck
  have hdo : retry.Do cfg fn cd = .cancelled cfg.Operation k :=
    retry.doFrom_cancelled cfg fn cd k hkmax hfk hck cfg.MaxAttempts 1 _ (by omega) hk1
      (fun j hj1 hj2 => hfail j hj1 hj2)
  refine ⟨hdo, by rw [hdo]; rfl, ?_, rfl⟩
  intro e h
  rw [hdo] at h
  cases h

/-- Witness for C7: an operation failing on attempt 1 with the context
cancelled during the following backoff aborts immediately with the
cancellation result. -/
theorem retryDo_cancelled_during_backoff_witness :
    retry.Do (retry.SSHConfig "op") (fun _ => some "x") (fun _ => true) =
      .cancelled "op" 1 :=
  ((retryDo_cancelled_during_backoff (retry.SSHConfig "op") (fun _ => some "x")
    (fun _ => true) 1) (by decide) (by decide) (fun j hj1 hj2 => by omega)
    (by decide) rfl).1

/-- C9: in the interleaving model of two goroutines concurrently calling
`Pool.Get` for the same host (double-checked locking over the
read-write mutex, with connection creation succeeding), every
interleaving is explored and at every reachable state at most one
connection has ever been created, each caller only ever returns the
connection stored in the map, and in every final state exactly one
connection was created, it is the one held in the pool's single
per-host slot, and both callers return it. -/
theorem poolGet_concurrent_single_creation :
    pool.checkAll 16 pool.initState = true := by decide

namespace ipdetect

/-- The dotted-decimal rendering of an IPv4 address is never the empty
string. -/
lemma render_ne_empty (ip : IPv4) : ip.render ≠ "" := by
  intro h
  have hlen := congrArg String.length h
  have hdot : (".").length = 1 := rfl
  have hnil : ("").length = 0 := rfl
  simp only [IPv4.render, String.length_append, hdot, hnil] at hlen
  omega

/-- The hostname-scan fallback either returns the node string or the
rendering of the best scanned address. -/
lemma hostnameFallback_cases (w : RemoteNode) (node : String) :
    hostnameFallback w node = node ∨
    (∃ f best, w.hostnameI = some f ∧ SelectBestIP f w.dockerSubnets = some best ∧
      hostnameFallback w node = best.render) := by
  cases hf : w.hostnameI with
  | none => exact Or.inl (by simp [hostnameFallback, hf])
  | some fields =>
    cases hs : SelectBestIP fields w.dockerSubnets with
    | none => exact Or.inl (by simp [hostnameFallback, hf, hs])
    | some best => exact Or.inr ⟨fields, best, rfl, hs, by simp [hostnameFallback, hf, hs]⟩

/-- When the hostname scan yields nothing usable, the fallback is the
node string. -/
lemma hostnameFallback_eq_node (w : RemoteNode) (node : String)
    (hi : w.hostnameI = none ∨
      ∃ f, w.hostnameI = some f ∧ SelectBestIP f w.dockerSubnets = none) :
    hostnameFallback w node = node := by
  rcases hi with hi | ⟨f, hf, hsel⟩
  · simp [hostnameFallback, hi]
  · simp [hostnameFallback, hf, hsel]

/-- Exhaustive case analysis of `DetectPrimarySSH`: the result is the
hostname-scan fallback, a Netbird-reported address, or a
Tailscale-reported address. -/
lemma detectPrimarySSH_cases (w : RemoteNode) (node provider : String) :
    DetectPrimarySSH w node provider = hostnameFallback w node ∨
    (∃ st, w.netbird = some st ∧ st.netbirdIp ≠ "" ∧
      DetectPrimarySSH w node provider = gostrings.headBeforeSlash st.netbirdIp) ∨
    (∃ st ip rest, w.tailscale = some st ∧ st.tailscaleIPs = ip :: rest ∧
      DetectPrimarySSH w node provider = ip) := by
  by_cases hp : gostrings.toLower (gostrings.trimSpace provider) = "netbird"
  · cases hnb : w.netbird with
    | none => exact Or.inl (by simp [DetectPrimarySSH, hp, hnb])
    | some st =>
      by_cases hip : st.netbirdIp = ""
      · exact Or.inl (by simp [DetectPrimarySSH, hp, hnb, hip])
      · exact Or.inr (Or.inl ⟨st, rfl, hip, by simp [DetectPrimarySSH, hp, hnb, hip]⟩)
  · by_cases hpt : gostrings.toLower (gostrings.trimSpace provider) = "tailscale"
    · cases hts : w.tailscale with
      | none => exact Or.inl (by simp [DetectPrimarySSH, hp, hpt, hts])
      | some st =>
        cases hips : st.tailscaleIPs with
        | nil => exact Or.inl (by simp [DetectPrimarySSH, hp, hpt, hts, hips])
        | cons ip rest =>
          exact Or.inr (Or.inr ⟨st, ip, rest, rfl, hips,
            by simp [DetectPrimarySSH, hp, hpt, hts, hips]⟩)
    · exact Or.inl (by simp [DetectPrimarySSH, hp, hpt])

/-- Exhaustive case analysis of `ResolveNodeAddressSSH`: the result is
an overlay hostname or address, a usable system hostname, or the
result of `DetectPrimarySSH`. -/
lemma resolveNodeAddressSSH_cases (w : RemoteNode) (node provider : String) :
    ResolveNodeAddressSSH w node provider = DetectPrimarySSH w node provider ∨
    (∃ st, w.netbird = some st ∧ st.fqdn ≠ "" ∧
      ResolveNodeAddressSSH w node provider = st.fqdn) ∨
    (∃ st, w.netbird = some st ∧ st.netbirdIp ≠ "" ∧
      ResolveNodeAddressSSH w node provider = gostrings.headBeforeSlash st.netbirdIp) ∨
    (∃ st, w.tailscale = some st ∧ st.dnsName ≠ "" ∧
      ResolveNodeAddressSSH w node provider = gostrings.trimSuffixDot st.dnsName) ∨
    (∃ st ip rest, w.tailscale = some st ∧ st.tailscaleIPs = ip :: rest ∧
      ResolveNodeAddressSSH w node provider = ip) ∨
    (∃ out, w.hostnameF = some out ∧ gostrings.trimSpace out ≠ "" ∧
      gostrings.trimSpace out ≠ "localhost" ∧
      ResolveNodeAddressSSH w node provider = gostrings.trimSpace out) := by
  by_cases hp : gostrings.toLower (gostrings.trimSpace provider) = "netbird"
  · cases hnb : w.netbird with
    | none =>
      cases hhf : w.hostnameF with
      | none => exact Or.inl (by simp [ResolveNodeAddressSSH, hp, hnb, hhf])
      | some out =>
        by_cases hcond : gostrings.trimSpace out ≠ "" ∧ gostrings.trimSpace out ≠ "localhost"
        · exact Or.inr (Or.inr (Or.inr (Or.inr (Or.inr ⟨out, rfl, hcond.1, hcond.2,
            by simp [ResolveNodeAddressSSH, hp, hnb, hhf, hcond.1, hcond.2]⟩))))
        · exact Or.inl (by
            simp only [ResolveNodeAddressSSH, DetectPrimarySSH, hp, hnb, hhf]
            simp [hcond])
    | some st =>
      by_cases hfq : st.fqdn = ""
      · by_cases hip : st.netbirdIp = ""
        · cases hhf : w.hostnameF with
          | none => exact Or.inl (by simp [ResolveNodeAddressSSH, hp, hnb, hfq, hip, hhf])
          | some out =>
            by_cases hcond : gostrings.trimSpace out ≠ "" ∧
                gostrings.trimSpace out ≠ "localhost"
            · exact Or.inr (Or.inr (Or.inr (Or.inr (Or.inr ⟨out, rfl, hcond.1, hcond.2,
                by simp [ResolveNodeAddressSSH, hp, hnb, hfq, hip, hhf, hcond.1, hcond.2]⟩))))
            · exact Or.inl (by
                simp only [ResolveNodeAddressSSH, DetectPrimarySSH, hp, hnb, hfq, hip, hhf]
                simp [hcond])
        · exact Or.inr (Or.inr (Or.inl ⟨st, rfl, hip,
            by simp [ResolveNodeAddressSSH, hp, hnb, hfq, hip]⟩))
      · exact Or.inr (Or.inl ⟨st, rfl, hfq, by simp [ResolveNodeAddressSSH, hp, hnb, hfq]⟩)
  · by_cases hpt : gostrings.toLower (gostrings.trimSpace provider) = "tailscale"
    · cases hts : w.tailscale with
      | none =>
        cases hhf : w.hostnameF with
        | none => exact Or.inl (by simp [ResolveNodeAddressSSH, hp, hpt, hts, hhf])
        | some out =>
          by_cases hcond : gostrings.trimSpace out ≠ "" ∧ gostrings.trimSpace out ≠ "localhost"
          · exact Or.inr (Or.inr (Or.inr (Or.inr (Or.inr ⟨out, rfl, hcond.1, hcond.2,
              by simp [ResolveNodeAddressSSH, hp, hpt, hts, hhf, hcond.1, hcond.2]⟩))))
          · exact Or.inl (by
              simp only [ResolveNodeAddressSSH, DetectPrimarySSH, hp, hpt, hts, hhf]
              simp [hcond])
      | some st =>
        by_cases hdns : st.dnsName = ""
        · cases hips : st.tailscaleIPs with
          | nil =>
            cases hhf : w.hostnameF with
            | none =>
              exact Or.inl (by simp [ResolveNodeAddressSSH, hp, hpt, hts, hdns, hips, hhf])
            | some out =>
              by_cases hcond : gostrings.trimSpace out ≠ "" ∧
                  gostrings.trimSpace out ≠ "localhost"
              · exact Or.inr (Or.inr (Or.inr (Or.inr (Or.inr ⟨out, rfl, hcond.1, hcond.2,
                  by simp [ResolveNodeAddressSSH, hp, hpt, hts, hdns, hips, hhf,
                    hcond.1, hcond.2]⟩))))
              · exact Or.inl (by
                  simp only [ResolveNodeAddressSSH, DetectPrimarySSH, hp, hpt, hts, hdns,
                    hips, hhf]
                  simp [hcond])
          | cons ip rest =>
            exact Or.inr (Or.inr (Or.inr (Or.inr (Or.inl ⟨st, ip, rest, rfl, hips,
              by simp [ResolveNodeAddressSSH, hp, hpt, hts, hdns, hips]⟩))))
        · exact Or.inr (Or.inr (Or.inr (Or.inl ⟨st, rfl, hdns,
            by simp [ResolveNodeAddressSSH, hp, hpt, hts, hdns]⟩)))
    · cases hhf : w.hostnameF with
      | none => exact Or.inl (by simp [ResolveNodeAddressSSH, hp, hpt, hhf])
      | some out =>
        by_cases hcond : gostrings.trimSpace out ≠ "" ∧ gostrings.trimSpace out ≠ "localhost"
        · exact Or.inr (Or.inr (Or.inr (Or.inr (Or.inr ⟨out, rfl, hcond.1, hcond.2,
            by simp [ResolveNodeAddressSSH, hp, hpt, hhf, hcond.1, hcond.2]⟩))))
        · exact Or.inl (by
            simp only [ResolveNodeAddressSSH, DetectPrimarySSH, hp, hpt, hhf]
            simp [hcond])

end ipdetect

/-- C10 (counterexample): `DetectPrimarySSH` can return the empty
string even for a nonempty node identifier — when the Netbird status
query succeeds but reports an address whose part before the first
slash is empty (`"/24"`), the function returns that empty head rather
than falling back to the node string. -/
theorem detectPrimarySSH_empty_counterexample :
    ipdetect.DetectPrimarySSH ⟨some ⟨"", "/24"⟩, none, none, none, []⟩ "node1" "netbird" =
      "" ∧
    ("node1" : String) ≠ "" := by
  exact ⟨rfl, by decide⟩

/-- C10 (amended): `DetectPrimarySSH` and `ResolveNodeAddressSSH` are
total and never report an error; when the overlay-status queries fail,
the hostname queries fail or yield nothing usable, and the interface
scan yields no usable address, both fall back to returning the
caller-supplied node string itself (unlike local detection, which
fails with an error when no IPv4 address exists). Their result is
nonempty provided the node string is nonempty and every overlay query
that succeeds reports well-formed values (a Netbird address with a
nonempty part before any slash; Tailscale IP entries nonempty and a
DNS name that is not a bare dot). -/
theorem detectPrimarySSH_resolve_fallback_amended (w : ipdetect.RemoteNode)
    (node provider : String) :
    (w.netbird = none → w.tailscale = none →
      (w.hostnameI = none ∨
        ∃ f, w.hostnameI = some f ∧ ipdetect.SelectBestIP f w.dockerSubnets = none) →
      ipdetect.DetectPrimarySSH w node provider = node) ∧
    (w.netbird = none → w.tailscale = none →
      (w.hostnameI = none ∨
        ∃ f, w.hostnameI = some f ∧ ipdetect.SelectBestIP f w.dockerSubnets = none) →
      (w.hostnameF = none ∨
        ∃ out, w.hostnameF = some out ∧
          (gostrings.trimSpace out = "" ∨ gostrings.trimSpace out = "localhost")) →
      ipdetect.ResolveNodeAddressSSH w node provider = node) ∧
    (node ≠ "" →
      (∀ st, w.netbird = some st → st.netbirdIp ≠ "" →
        gostrings.headBeforeSlash st.netbirdIp ≠ "") →
      (∀ st, w.tailscale = some st →
        (∀ ip rest, st.tailscaleIPs = ip :: rest → ip ≠ "") ∧
        (st.dnsName ≠ "" → gostrings.trimSuffixDot st.dnsName ≠ "")) →
      ipdetect.DetectPrimarySSH w node provider ≠ "" ∧
      ipdetect.ResolveNodeAddressSSH w node provider ≠ "") := by
  have detectFallback : w.netbird = none → w.tailscale = none →
      (w.hostnameI = none ∨
        ∃ f, w.hostnameI = some f ∧ ipdetect.SelectBestIP f w.dockerSubnets = none) →
      ipdetect.DetectPrimarySSH w node provider = node := by
    intro hn ht hi
    rcases ipdetect.detectPrimarySSH_cases w node provider with h | ⟨st, hst, -, -⟩ |
        ⟨st, ip, rest, hst, -, -⟩
    · rw [h]
      exact ipdetect.hostnameFallback_eq_node w node hi
    · rw [hn] at hst; cases hst
    · rw [ht] at hst; cases hst
  have detectNonempty : node ≠ "" →
      (∀ st, w.netbird = some st → st.netbirdIp ≠ "" →
        gostrings.headBeforeSlash st.netbirdIp ≠ "") →
      (∀ st, w.tailscale = some st →
        (∀ ip rest, st.tailscaleIPs = ip :: rest → ip ≠ "") ∧
        (st.dnsName ≠ "" → gostrings.trimSuffixDot st.dnsName ≠ "")) →
      ipdetect.DetectPrimarySSH w node provider ≠ "" := by
    intro hnode hnb hts
    rcases ipdetect.detectPrimarySSH_cases w node provider with h | ⟨st, hst, hip, h⟩ |
        ⟨st, ip, rest, hst, hips, h⟩
    · rw [h]
      rcases ipdetect.hostnameFallback_cases w node with h' | ⟨f, best, -, -, h'⟩
      · rw [h']; exact hnode
      · rw [h']; exact ipdetect.render_ne_empty best
    · rw [h]; exact hnb st hst hip
    · rw [h]; exact (hts st hst).1 ip rest hips
  refine ⟨detectFallback, ?_, ?_⟩
  · intro hn ht hi hf
    rcases ipdetect.resolveNodeAddressSSH_cases w node provider with h | ⟨st, hst, -, -⟩ |
        ⟨st, hst, -, -⟩ | ⟨st, hst, -, -⟩ | ⟨st, ip, rest, hst, -, -⟩ |
        ⟨out, hout, hne, hnl, h⟩
    · rw [h]; exact detectFallback hn ht hi
    · rw [hn] at hst; cases hst
    · rw [hn] at hst; cases hst
    · rw [ht] at hst; cases hst
    · rw [ht] at hst; cases hst
    · rcases hf with hf | ⟨out', hout', hbad⟩
      · rw [hf] at hout; cases hout
      · rw [hout'] at hout
        cases Option.some.inj hout
        rcases hbad with hbad | hbad
        · exact absurd hbad hne
        · exact absurd hbad hnl
  · intro hnode hnb hts
    refine ⟨detectNonempty hnode hnb hts, ?_⟩
    rcases ipdetect.resolveNodeAddressSSH_cases w node provider with h | ⟨st, hst, hfq, h⟩ |
        ⟨st, hst, hip, h⟩ | ⟨st, hst, hdns, h⟩ | ⟨st, ip, rest, hst, hips, h⟩ |
        ⟨out, hout, hne, hnl, h⟩
    · rw [h]; exact detectNonempty hnode hnb hts
    · rw [h]; exact hfq
    · rw [h]; exact hnb st hst hip
    · rw [h]; exact (hts st hst).2 hdns
    · rw [h]; exact (hts st hst).1 ip rest hips
    · rw [h]; exact hne

/-- Witness for the amended C10 theorem at a concrete all-fail world:
with no overlay status, no hostname output and no interface scan
results, both resolution functions return the caller-supplied node
string. -/
theorem detectPrimarySSH_resolve_fallback_witness :
    ipdetect.DetectPrimarySSH ⟨none, none, none, none, []⟩ "node9" "netbird" = "node9" ∧
    ipdetect.ResolveNodeAddressSSH ⟨none, none, none, none, []⟩ "node9" "netbird" =
      "node9" :=
  ⟨(detectPrimarySSH_resolve_fallback_amended ⟨none, none, none, none, []⟩ "node9"
      "netbird").1 rfl rfl (Or.inl rfl),
    (detectPrimarySSH_resolve_fallback_amended ⟨none, none, none, none, []⟩ "node9"
      "netbird").2.1 rfl rfl (Or.inl rfl) (Or.inl rfl)⟩
